import Mathlib

/-!
# Verification of the Decentralized-Storage-Platform core

Shallow embedding of the repository's storage core:

* `contracts/StorageMarketplace.sol` — the escrowed rental-deal state machine
  (provider registry, deal creation/completion/cancellation, capacity and
  reputation accounting).  Solidity 0.8 `uint256` arithmetic is checked: any
  overflow past `2^256` or subtraction below zero reverts the transaction, so
  every arithmetic operation of the source is embedded through explicit
  guards that return an error (modelling the revert) instead of wrapping.
  A reverted call leaves the contract state unchanged; the embedding models
  this by having each operation return `Except MErr σ'` where an `error`
  result means the pre-state is kept.
* `src/services/StorageNetworkService.ts` — `splitFileIntoChunks` (the
  chunking engine) and `selectProvidersForFile`.
* the `StorageNetwork` contract — `uploadFileToNetwork` / `_selectProvider`
  (chunk placement and capacity accounting).
* `NetworkAnalyticsService.calculateNetworkHealth` — the composite health
  score; JavaScript numbers are modelled as rationals (`ℚ`), with
  `Math.round x = ⌊x + 1/2⌋`, which agrees with the source on every value
  used in the theorems below.

Maps (`mapping(address => ...)`, `Map<string, ...>`) are embedded as
association lists where an update conses the new binding in front and a
lookup takes the first binding, with the Solidity zero-struct as the
default for absent keys.
-/

/-- 2^256, the bound of Solidity `uint256` arithmetic; reaching it reverts. -/
def U256 : Nat := 2 ^ 256

/-- A value transfer performed by a marketplace call: (recipient, wei). -/
abbrev Transfer := Nat × Nat

/-- Errors of the embedded marketplace; one constructor per distinct
`require` message of `StorageMarketplace.sol`, plus the two checked
`uint256` arithmetic panics of Solidity 0.8. -/
inductive MErr where
  | capacityZero
  | priceZero
  | alreadyRegistered
  | providerNotActive
  | fileSizeZero
  | durationTooShort
  | durationTooLong
  | insufficientCapacity
  | insufficientPayment
  | notAuthorized
  | dealNotActive
  | dealNotExpired
  | onlyRenterCanCancel
  | dealAlreadyStarted
  | providerNotRegistered
  | newCapacityTooSmall
  | cannotDeactivate
  | onlyProviderCanSubmit
  | dealExpired
  | contractPaused
  | overflow
  | underflow
  deriving DecidableEq, Repr

/-- Classification of the embedded errors under the spec's error taxonomy
(spec section 7): a `StateError` is an "operation invalid for current
status/time window" failure.  Modelled from the spec: the marketplace
source only carries revert strings, the taxonomy names come from the
spec. -/
def MErr.isStateError : MErr → Bool
  | .dealNotActive => true
  | .dealNotExpired => true
  | .dealAlreadyStarted => true
  | .dealExpired => true
  | _ => false

/-- `ProviderProfile` of `StorageMarketplace.sol` (addresses as `Nat`). -/
structure ProviderProfile where
  provider : Nat
  totalCapacity : Nat
  usedCapacity : Nat
  reputation : Nat
  isActive : Bool
  location : String
  pricePerByte : Nat
  deriving DecidableEq, Repr

/-- Solidity zero value of `ProviderProfile` (mapping default). -/
def defaultProfile : ProviderProfile :=
  { provider := 0, totalCapacity := 0, usedCapacity := 0, reputation := 0
    isActive := false, location := "", pricePerByte := 0 }

/-- `StorageDeal` of `StorageMarketplace.sol`. -/
structure StorageDeal where
  dealId : Nat
  provider : Nat
  renter : Nat
  fileSize : Nat
  pricePerByte : Nat
  duration : Nat
  startTime : Nat
  endTime : Nat
  isActive : Bool
  isCompleted : Bool
  proofHash : String
  deriving DecidableEq, Repr

/-- Solidity zero value of `StorageDeal` (mapping default). -/
def defaultDeal : StorageDeal :=
  { dealId := 0, provider := 0, renter := 0, fileSize := 0, pricePerByte := 0
    duration := 0, startTime := 0, endTime := 0, isActive := false
    isCompleted := false, proofHash := "" }

/-- Contract storage of `StorageMarketplace`. -/
structure MarketState where
  dealIdCounter : Nat
  deals : List (Nat × StorageDeal)
  providers : List (Nat × ProviderProfile)
  userDeals : List (Nat × List Nat)
  providerDeals : List (Nat × List Nat)
  minDealDuration : Nat
  maxDealDuration : Nat
  platformFee : Nat
  paused : Bool
  deriving DecidableEq, Repr

/-- The state right after the constructor runs (field initializers of the
source: `minDealDuration = 3600`, `maxDealDuration = 365 days`,
`platformFee = 250`). -/
def initialMarketState : MarketState :=
  { dealIdCounter := 0, deals := [], providers := [], userDeals := []
    providerDeals := [], minDealDuration := 3600
    maxDealDuration := 365 * 86400, platformFee := 250, paused := false }

/-- `providers[a]` with the Solidity mapping default. -/
def MarketState.providerOf (σ : MarketState) (a : Nat) : ProviderProfile :=
  (σ.providers.lookup a).getD defaultProfile

/-- `deals[i]` with the Solidity mapping default. -/
def MarketState.dealOf (σ : MarketState) (i : Nat) : StorageDeal :=
  (σ.deals.lookup i).getD defaultDeal

/-- `userDeals[a]` (empty array default). -/
def MarketState.userDealsOf (σ : MarketState) (a : Nat) : List Nat :=
  (σ.userDeals.lookup a).getD []

/-- `providerDeals[a]` (empty array default). -/
def MarketState.providerDealsOf (σ : MarketState) (a : Nat) : List Nat :=
  (σ.providerDeals.lookup a).getD []

/-- Write `providers[a] := p` (cons-front association-list update). -/
def MarketState.setProvider (σ : MarketState) (a : Nat) (p : ProviderProfile) :
    MarketState :=
  { σ with providers := (a, p) :: σ.providers }

/-- Write `deals[i] := d`. -/
def MarketState.setDeal (σ : MarketState) (i : Nat) (d : StorageDeal) :
    MarketState :=
  { σ with deals := (i, d) :: σ.deals }

/-- `registerProvider(capacity, pricePerByte, location)` called by
`caller`; mirrors the three `require`s and the profile write of the
source (reputation starts at 100). -/
def registerProvider (σ : MarketState) (caller cap price : Nat)
    (loc : String) : Except MErr MarketState :=
  if ¬ 0 < cap then .error .capacityZero
  else if ¬ 0 < price then .error .priceZero
  else if (σ.providerOf caller).isActive then .error .alreadyRegistered
  else .ok (σ.setProvider caller
    { provider := caller, totalCapacity := cap, usedCapacity := 0
      reputation := 100, isActive := true, location := loc
      pricePerByte := price })

/-- The storage writes of a successful `createDeal` body, in source
order: increment `_dealIdCounter`, record the deal (price snapshotted
from the provider's current `pricePerByte`, `startTime = now`,
`endTime = now + duration`), charge `fileSize` to the provider, and push
the deal id onto `userDeals[caller]` and `providerDeals[provider]`. -/
def createDealEffect (σ : MarketState) (caller now provider fileSize
    duration : Nat) : MarketState :=
  let p := σ.providerOf provider
  let dealId := σ.dealIdCounter
  let σ₁ := { σ with dealIdCounter := σ.dealIdCounter + 1 }
  let σ₂ := σ₁.setDeal dealId
    { dealId := dealId, provider := provider, renter := caller
      fileSize := fileSize, pricePerByte := p.pricePerByte
      duration := duration, startTime := now, endTime := now + duration
      isActive := true, isCompleted := false, proofHash := "" }
  let σ₃ := σ₂.setProvider provider
    { p with usedCapacity := p.usedCapacity + fileSize }
  { σ₃ with
    userDeals := (caller, σ.userDealsOf caller ++ [dealId]) :: σ₃.userDeals
    providerDeals :=
      (provider, σ.providerDealsOf provider ++ [dealId]) :: σ₃.providerDeals }

/-- `createDeal(provider, fileSize, duration)` called by `caller` with
`msg.value = payment` at `block.timestamp = now`.  The guards appear in
source order, with a checked-arithmetic guard right before each `uint256`
operation that the EVM would revert on.  On success it returns the new
state together with the outgoing transfers (provider payment, then the
excess refund when `payment > totalPrice`). -/
def createDeal (σ : MarketState) (caller now provider fileSize duration
    payment : Nat) : Except MErr (MarketState × List Transfer) :=
  let p := σ.providerOf provider
  if σ.paused then .error .contractPaused
  else if ¬ p.isActive then .error .providerNotActive
  else if ¬ 0 < fileSize then .error .fileSizeZero
  else if ¬ σ.minDealDuration ≤ duration then .error .durationTooShort
  else if ¬ duration ≤ σ.maxDealDuration then .error .durationTooLong
  else if ¬ p.usedCapacity + fileSize < U256 then .error .overflow
  else if ¬ p.usedCapacity + fileSize ≤ p.totalCapacity then
    .error .insufficientCapacity
  else if ¬ σ.dealIdCounter + 1 < U256 then .error .overflow
  else if ¬ fileSize * p.pricePerByte < U256 then .error .overflow
  else if ¬ fileSize * p.pricePerByte * duration < U256 then .error .overflow
  else
  let dealId := σ.dealIdCounter
  let totalPrice := fileSize * p.pricePerByte * duration
  if ¬ totalPrice ≤ payment then .error .insufficientPayment
  else if ¬ now + duration < U256 then .error .overflow
  else if ¬ totalPrice * σ.platformFee < U256 then .error .overflow
  else
  let fee := totalPrice * σ.platformFee / 10000
  if ¬ fee ≤ totalPrice then .error .underflow
  else
  let providerPayment := totalPrice - fee
  .ok (createDealEffect σ caller now provider fileSize duration,
    (provider, providerPayment) ::
      (if totalPrice < payment then [(caller, payment - totalPrice)] else []))

/-- `submitProof(dealId, proofHash)` called by `caller` at time `now`. -/
def submitProof (σ : MarketState) (caller now dealId : Nat)
    (proofHash : String) : Except MErr MarketState :=
  let deal := σ.dealOf dealId
  if ¬ deal.provider = caller then .error .onlyProviderCanSubmit
  else if ¬ deal.isActive then .error .dealNotActive
  else if ¬ now < deal.endTime then .error .dealExpired
  else .ok (σ.setDeal dealId { deal with proofHash := proofHash })

/-- The storage writes of a successful `completeDeal` body: the deal is
deactivated and marked completed, the provider is charged back
`fileSize` and given the reputation `newReputation` computed by the
caller of this helper.  (The source reads the provider mapping after the
deal write; `setDeal` does not touch the provider mapping, so reading it
from `σ` is the same.) -/
def completeDealEffect (σ : MarketState) (dealId newReputation : Nat) :
    MarketState :=
  let deal := σ.dealOf dealId
  let p := σ.providerOf deal.provider
  (σ.setDeal dealId
      { deal with isActive := false, isCompleted := true }).setProvider
    deal.provider
    { p with usedCapacity := p.usedCapacity - deal.fileSize
             reputation := newReputation }

/-- `completeDeal(dealId)` called by `caller` at time `now`.  The
capacity subtraction, the reputation increment and the reputation
decrement are checked `uint256` operations of Solidity 0.8: reaching
them with `fileSize > usedCapacity`, `reputation + 10 ≥ 2^256` or
`reputation < 5` reverts the whole call — there is no clamping. -/
def completeDeal (σ : MarketState) (caller now dealId : Nat) :
    Except MErr MarketState :=
  let deal := σ.dealOf dealId
  let p := σ.providerOf deal.provider
  if ¬ (deal.renter = caller ∨ deal.provider = caller) then
    .error .notAuthorized
  else if ¬ deal.isActive then .error .dealNotActive
  else if ¬ deal.endTime ≤ now then .error .dealNotExpired
  else if ¬ deal.fileSize ≤ p.usedCapacity then .error .underflow
  else if 0 < deal.proofHash.length then
    if ¬ p.reputation + 10 < U256 then .error .overflow
    else .ok (completeDealEffect σ dealId (p.reputation + 10))
  else
    if ¬ 5 ≤ p.reputation then .error .underflow
    else .ok (completeDealEffect σ dealId (p.reputation - 5))

/-- The storage writes of a successful `cancelDeal` body: the deal is
deactivated (not marked completed) and the provider is released
`fileSize` bytes.  (As for `completeDealEffect`, the provider read
commutes with the deal write.) -/
def cancelDealEffect (σ : MarketState) (dealId : Nat) : MarketState :=
  let deal := σ.dealOf dealId
  let p := σ.providerOf deal.provider
  (σ.setDeal dealId { deal with isActive := false }).setProvider
    deal.provider
    { p with usedCapacity := p.usedCapacity - deal.fileSize }

/-- `cancelDeal(dealId)` called by `caller` at time `now`.  On success
the deal is deactivated, `fileSize` is released from the provider and
the full deal price `fileSize * pricePerByte * duration` (at the deal's
stored price snapshot) is refunded to the renter. -/
def cancelDeal (σ : MarketState) (caller now dealId : Nat) :
    Except MErr (MarketState × List Transfer) :=
  let deal := σ.dealOf dealId
  let p := σ.providerOf deal.provider
  if ¬ deal.renter = caller then .error .onlyRenterCanCancel
  else if ¬ deal.isActive then .error .dealNotActive
  else if ¬ now < deal.startTime then .error .dealAlreadyStarted
  else if ¬ deal.fileSize ≤ p.usedCapacity then .error .underflow
  else if ¬ deal.fileSize * deal.pricePerByte < U256 then .error .overflow
  else if ¬ deal.fileSize * deal.pricePerByte * deal.duration < U256 then
    .error .overflow
  else
  let refundAmount := deal.fileSize * deal.pricePerByte * deal.duration
  .ok (cancelDealEffect σ dealId, [(deal.renter, refundAmount)])

/-- `updateProviderCapacity(newCapacity)` called by `caller`. -/
def updateProviderCapacity (σ : MarketState) (caller newCapacity : Nat) :
    Except MErr MarketState :=
  let p := σ.providerOf caller
  if ¬ p.isActive then .error .providerNotRegistered
  else if ¬ p.usedCapacity ≤ newCapacity then .error .newCapacityTooSmall
  else .ok (σ.setProvider caller { p with totalCapacity := newCapacity })

/-- `updateProviderPrice(newPrice)` called by `caller`. -/
def updateProviderPrice (σ : MarketState) (caller newPrice : Nat) :
    Except MErr MarketState :=
  let p := σ.providerOf caller
  if ¬ p.isActive then .error .providerNotRegistered
  else if ¬ 0 < newPrice then .error .priceZero
  else .ok (σ.setProvider caller { p with pricePerByte := newPrice })

/-- `deactivateProvider()` called by `caller`. -/
def deactivateProvider (σ : MarketState) (caller : Nat) :
    Except MErr MarketState :=
  let p := σ.providerOf caller
  if ¬ p.isActive then .error .providerNotActive
  else if ¬ p.usedCapacity = 0 then .error .cannotDeactivate
  else .ok (σ.setProvider caller { p with isActive := false })

/-- One external marketplace call, with its caller and the block
timestamp it executes at. -/
inductive MOp where
  | register (caller cap price : Nat) (loc : String)
  | create (caller now provider fileSize duration payment : Nat)
  | proof (caller now dealId : Nat) (proofHash : String)
  | complete (caller now dealId : Nat)
  | cancel (caller now dealId : Nat)
  | updateCapacity (caller newCapacity : Nat)
  | updatePrice (caller newPrice : Nat)
  | deactivate (caller : Nat)
  deriving DecidableEq, Repr

/-- Execute one call against the contract: a reverted (`error`) call
leaves the state unchanged, exactly as an EVM revert does. -/
def step (σ : MarketState) (op : MOp) : MarketState :=
  match op with
  | .register caller cap price loc =>
      match registerProvider σ caller cap price loc with
      | .ok σ' => σ' | .error _ => σ
  | .create caller now provider fileSize duration payment =>
      match createDeal σ caller now provider fileSize duration payment with
      | .ok (σ', _) => σ' | .error _ => σ
  | .proof caller now dealId proofHash =>
      match submitProof σ caller now dealId proofHash with
      | .ok σ' => σ' | .error _ => σ
  | .complete caller now dealId =>
      match completeDeal σ caller now dealId with
      | .ok σ' => σ' | .error _ => σ
  | .cancel caller now dealId =>
      match cancelDeal σ caller now dealId with
      | .ok (σ', _) => σ' | .error _ => σ
  | .updateCapacity caller newCapacity =>
      match updateProviderCapacity σ caller newCapacity with
      | .ok σ' => σ' | .error _ => σ
  | .updatePrice caller newPrice =>
      match updateProviderPrice σ caller newPrice with
      | .ok σ' => σ' | .error _ => σ
  | .deactivate caller =>
      match deactivateProvider σ caller with
      | .ok σ' => σ' | .error _ => σ

/-- Run a sequence of calls from the freshly-constructed contract. -/
def runOps (ops : List MOp) : MarketState :=
  ops.foldl step initialMarketState

/-- The capacity invariant: every provider (including the mapping
default) has `usedCapacity ≤ totalCapacity`. -/
def CapInv (σ : MarketState) : Prop :=
  ∀ a : Nat, (σ.providerOf a).usedCapacity ≤ (σ.providerOf a).totalCapacity

/-!
## ChunkingEngine — `StorageNetworkService.splitFileIntoChunks`

The source loop is
`for (let start = 0; start < file.size; start += chunkSize)` slicing
`[start, min(start + chunkSize, size))`.  For `chunkSize ≥ 1` the loop
terminates and produces the chunk list embedded below.  For
`chunkSize ≤ 0` the loop variable never reaches `file.size` (see
`splitLoopStart`), so the source diverges and no value is produced;
the recursive equation below therefore only models the `chunkSize ≥ 1`
case (its `chunkSize = 0` branch is never read by any theorem).
The source performs no input validation and has no throw path of its
own, so the embedding returns a plain list.
-/

/-- A browser `File` as the chunker consumes it: a name plus its byte
content (bytes as `Nat`).  `splitFileIntoChunks` reads only `size` and
`slice`, both functions of the bytes. -/
structure JSFile where
  name : String
  bytes : List Nat
  deriving DecidableEq, Repr

/-- The chunk list produced by `splitFileIntoChunks` (chunks as byte
lists; `file.slice(start, end)`). -/
def splitFileIntoChunks (chunkSize : Nat) (bytes : List Nat) :
    List (List Nat) :=
  if h : 0 < chunkSize ∧ bytes ≠ [] then
    bytes.take chunkSize :: splitFileIntoChunks chunkSize (bytes.drop chunkSize)
  else []
termination_by bytes.length
decreasing_by
  simp only [List.length_drop]
  exact Nat.sub_lt (List.length_pos.mpr h.2) h.1

/-- The hash sequence of `splitFileIntoChunks`: one digest per chunk,
in order.  The digest (`crypto.subtle.digest("SHA-256", ·)` followed by
hex encoding) is a fixed function of the chunk bytes; it is abstracted
as the parameter `digest`. -/
def chunkHashes (digest : List Nat → String) (chunkSize : Nat)
    (bytes : List Nat) : List String :=
  (splitFileIntoChunks chunkSize bytes).map digest

/-- The loop variable of the source's `for` loop before iteration `n`:
`start` begins at `0` and gains `chunkSize` each iteration, so it equals
`n * chunkSize` (as a JavaScript number, possibly negative — hence `Int`).
The loop runs while `start < file.size`. -/
def splitLoopStart (chunkSize : Int) (n : Nat) : Int :=
  n * chunkSize

/-!
## PlacementScheduler — `StorageNetwork.uploadFileToNetwork`

Embedding of the `StorageNetwork` contract's provider registry and the
chunk-placement loop (`uploadFileToNetwork` / `_selectProvider`), with
the same revert conventions as the marketplace embedding.  The Solidity
`sp.totalStorage - sp.usedStorage` in `_selectProvider` is embedded as
truncated `Nat` subtraction; the two agree on every state in which each
provider has `usedStorage ≤ totalStorage` (the registry invariant), and
every theorem below is stated on such states.
-/

/-- `StorageProvider` of the `StorageNetwork` contract. -/
structure StorageProvider where
  totalStorage : Nat
  usedStorage : Nat
  uploadCount : Nat
  isActive : Bool
  endpoint : String
  nftTokenId : Nat
  deriving DecidableEq, Repr

/-- Solidity zero value of `StorageProvider`. -/
def defaultSNProvider : StorageProvider :=
  { totalStorage := 0, usedStorage := 0, uploadCount := 0, isActive := false
    endpoint := "", nftTokenId := 0 }

/-- `FileChunk` of the `StorageNetwork` contract. -/
structure FileChunk where
  chunkHash : String
  provider : Nat
  size : Nat
  uploadTime : Nat
  deriving DecidableEq, Repr

/-- `DistributedFile` of the `StorageNetwork` contract. -/
structure DistributedFile where
  fileName : String
  totalSize : Nat
  uploader : Nat
  chunkHashes : List String
  chunkProviders : List Nat
  uploadTime : Nat
  isActive : Bool
  deriving DecidableEq, Repr

/-- Solidity zero value of `DistributedFile`. -/
def defaultDistributedFile : DistributedFile :=
  { fileName := "", totalSize := 0, uploader := 0, chunkHashes := []
    chunkProviders := [], uploadTime := 0, isActive := false }

/-- Contract storage of `StorageNetwork` (the fields the placement path
touches). -/
structure SNState where
  storageProviders : List (Nat × StorageProvider)
  fileChunks : List (String × FileChunk)
  distributedFiles : List (String × DistributedFile)
  activeProviders : List Nat
  activeFileIds : List String
  deriving DecidableEq, Repr

/-- `MIN_REDUNDANCY` of the `StorageNetwork` contract. -/
def MIN_REDUNDANCY : Nat := 3

/-- Errors of the embedded `StorageNetwork` calls, one per `require`
message on the upload path, plus the checked-arithmetic panic. -/
inductive SNErr where
  | invalidFileId
  | invalidFileSize
  | noChunks
  | fileExists
  | insufficientActiveProviders
  | noSuitableProvider
  | overflow
  deriving DecidableEq, Repr

/-- `storageProviders[a]` with the Solidity mapping default. -/
def SNState.providerOf (σ : SNState) (a : Nat) : StorageProvider :=
  (σ.storageProviders.lookup a).getD defaultSNProvider

/-- `distributedFiles[fileId]` with the Solidity mapping default. -/
def SNState.fileOf (σ : SNState) (fid : String) : DistributedFile :=
  (σ.distributedFiles.lookup fid).getD defaultDistributedFile

/-- `_selectProvider(chunkSize)`: linear scan over `activeProviders`
keeping the first provider whose score `available / (uploadCount + 1)`
strictly beats the best so far; returns address `0` when none qualifies. -/
def selectProvider (σ : SNState) (chunkSize : Nat) : Nat :=
  (σ.activeProviders.foldl (fun best a =>
    let sp := σ.providerOf a
    if ¬ sp.isActive then best
    else if sp.totalStorage - sp.usedStorage < chunkSize then best
    else
      let score := (sp.totalStorage - sp.usedStorage) / (sp.uploadCount + 1)
      if best.2 < score then (a, score) else best) (0, 0)).1

/-- The chunk-distribution loop of `uploadFileToNetwork`: one
`_selectProvider` call per chunk hash, reverting the whole call when it
returns address `0`, otherwise recording the chunk and charging
`chunkSize` bytes and one upload to the selected provider.  Returns the
updated state and the selected provider of each chunk, in order. -/
def uploadChunksLoop (now chunkSize : Nat) :
    SNState → List String → Except SNErr (SNState × List Nat)
  | σ, [] => .ok (σ, [])
  | σ, h :: rest =>
    let provider := selectProvider σ chunkSize
    if provider = 0 then .error .noSuitableProvider
    else
      let sp := σ.providerOf provider
      if ¬ sp.usedStorage + chunkSize < U256 then .error .overflow
      else if ¬ sp.uploadCount + 1 < U256 then .error .overflow
      else
      let newChunk : FileChunk :=
        { chunkHash := h, provider := provider, size := chunkSize
          uploadTime := now }
      let sp₁ : StorageProvider :=
        { sp with usedStorage := sp.usedStorage + chunkSize
                  uploadCount := sp.uploadCount + 1 }
      let σ₁ : SNState := { σ with
        fileChunks := (h, newChunk) :: σ.fileChunks
        storageProviders := (provider, sp₁) :: σ.storageProviders }
      match uploadChunksLoop now chunkSize σ₁ rest with
      | .ok (σ₂, sel) => .ok (σ₂, provider :: sel)
      | .error e => .error e

/-- `uploadFileToNetwork(fileId, fileName, fileSize, chunkHashes)` called
by `caller` at time `now`.  An `error` result models a revert: the
pre-state is kept, so every partial provider charge of the loop is
undone. -/
def uploadFileToNetwork (σ : SNState) (caller now : Nat)
    (fileId fileName : String) (fileSize : Nat) (chunkHashes : List String) :
    Except SNErr SNState :=
  if ¬ 0 < fileId.length then .error .invalidFileId
  else if ¬ 0 < fileSize then .error .invalidFileSize
  else if ¬ 0 < chunkHashes.length then .error .noChunks
  else if (σ.fileOf fileId).isActive then .error .fileExists
  else if ¬ MIN_REDUNDANCY ≤ σ.activeProviders.length then
    .error .insufficientActiveProviders
  else
    match uploadChunksLoop now (fileSize / chunkHashes.length) σ chunkHashes with
    | .error e => .error e
    | .ok (σ₁, selectedProviders) =>
      .ok { σ₁ with
        distributedFiles := (fileId,
          { fileName := fileName, totalSize := fileSize, uploader := caller
            chunkHashes := chunkHashes, chunkProviders := selectedProviders
            uploadTime := now, isActive := true }) :: σ₁.distributedFiles
        activeFileIds := σ₁.activeFileIds ++ [fileId] }

/-!
## NetworkHealthAggregator — `NetworkAnalyticsService.calculateNetworkHealth`

JavaScript numbers are modelled as rationals; `Math.round x = ⌊x + 1/2⌋`
(JavaScript rounds half toward positive infinity), `Math.min`/`Math.max`/
`Math.abs` are the rational `min`/`max`/`|·|`.  The local `totalFactors`
accumulator of the source is dead (never read by the returned
expression) and is omitted.
-/

/-- The slice of `currentStats.performance` that
`calculateNetworkHealth` reads. -/
structure PerformanceSnapshot where
  successRate : ℚ
  avgDownloadSpeed : ℚ
  networkLatency : ℚ
  deriving DecidableEq, Repr

/-- The slice of the `networkStats` argument that
`calculateNetworkHealth` reads. -/
structure NetworkStatsSnapshot where
  onlineDevices : ℚ
  totalDevices : ℚ
  totalStorage : ℚ
  usedStorage : ℚ
  onChainDevices : ℚ
  deriving DecidableEq, Repr

/-- `Math.round` of JavaScript on a rational: half rounds up. -/
def jsRound (q : ℚ) : ℤ := ⌊q + 1 / 2⌋

/-- `calculateNetworkHealth(networkStats, networkDevices)`; the
`networkDevices` argument is unused by the source body.  Returns the
clamped composite score `Math.min(100, Math.max(0, Math.round(h)))`. -/
def calculateNetworkHealth (networkStats : NetworkStatsSnapshot)
    (perf : PerformanceSnapshot) : ℤ :=
  let deviceAvailability :=
    networkStats.onlineDevices / max 1 networkStats.totalDevices
  let h₁ := deviceAvailability * 25
  let storageUtilization : ℚ :=
    if 0 < networkStats.totalStorage then
      min 1 (networkStats.usedStorage / networkStats.totalStorage)
    else 0
  let optimalUtilization := |7 / 10 - storageUtilization|
  let h₂ := max 0 (1 - optimalUtilization) * 20
  let performanceScore :=
    min 1 ((perf.successRate / 100) * min 1 (perf.avgDownloadSpeed / 20))
  let h₃ := performanceScore * 25
  let verificationRate : ℚ :=
    if 0 < networkStats.totalDevices then
      networkStats.onChainDevices / networkStats.totalDevices
    else 0
  let h₄ := verificationRate * 15
  let latencyScore := max 0 (1 - (perf.networkLatency - 20) / 100)
  let h₅ := max 0 latencyScore * 15
  min 100 (max 0 (jsRound (h₁ + h₂ + h₃ + h₄ + h₅)))

/-- The `performance` values of `initializeStats()` that
`calculateNetworkHealth` reads (`successRate: 100`, the speeds and the
latency start at `0`). -/
def initPerformance : PerformanceSnapshot :=
  { successRate := 100, avgDownloadSpeed := 0, networkLatency := 0 }

/-!
## `StorageNetworkService.selectProvidersForFile` (TypeScript)

The in-browser provider selection: it filters and ranks the active
providers and returns a prefix of the ranking; it performs no
reservation and signals no error when fewer providers qualify than
requested.  JavaScript `Array.prototype.sort` with the comparator
`scoreB - scoreA` is a stable descending sort by score, embedded as a
stable merge sort with the Boolean relation `score b ≤ score a`.
-/

/-- The TypeScript `StorageProvider` interface of
`StorageNetworkService.ts` (named apart from the Solidity struct of the
same name). -/
structure StorageProviderTS where
  address : Nat
  totalStorage : Nat
  usedStorage : Nat
  endpoint : String
  isActive : Bool
  uploadCount : Nat
  deriving DecidableEq, Repr

/-- The ranking score `(totalStorage - usedStorage) / (uploadCount + 1)`
(JavaScript real division). -/
def tsScore (p : StorageProviderTS) : ℚ :=
  ((p.totalStorage : ℚ) - p.usedStorage) / (p.uploadCount + 1)

/-- `selectProvidersForFile(fileSize, chunkCount, redundancy)` over the
current provider table (as a list in insertion order):
`chunkSize = Math.ceil(fileSize / chunkCount)`,
`requiredProviders = min(chunkCount * redundancy, activeProviders.length)`,
then the active providers with at least `chunkSize` free bytes, sorted
by score descending, truncated to `requiredProviders`. -/
def selectProvidersForFile (table : List StorageProviderTS)
    (fileSize chunkCount redundancy : Nat) : List StorageProviderTS :=
  let activeProviders := table.filter (·.isActive)
  let chunkSize : ℤ := ⌈(fileSize : ℚ) / chunkCount⌉
  let requiredProviders := min (chunkCount * redundancy) activeProviders.length
  let sortedProviders :=
    (activeProviders.filter
      (fun p => chunkSize ≤ (p.totalStorage : ℤ) - p.usedStorage)).mergeSort
      (fun a b => tsScore b ≤ tsScore a)
  sortedProviders.take requiredProviders

/-!
## Helper lemmas about the association-list maps
-/

theorem providerOf_setProvider (σ : MarketState) (a b : Nat)
    (p : ProviderProfile) :
    (σ.setProvider a p).providerOf b = if b = a then p else σ.providerOf b := by
  by_cases h : b = a
  · simp [MarketState.setProvider, MarketState.providerOf, List.lookup, h]
  · have hb : (b == a) = false := beq_eq_false_iff_ne.mpr h
    simp [MarketState.setProvider, MarketState.providerOf, List.lookup, h, hb]

theorem providerOf_setDeal (σ : MarketState) (a i : Nat) (d : StorageDeal) :
    (σ.setDeal i d).providerOf a = σ.providerOf a := rfl

theorem dealOf_setDeal (σ : MarketState) (i j : Nat) (d : StorageDeal) :
    (σ.setDeal i d).dealOf j = if j = i then d else σ.dealOf j := by
  by_cases h : j = i
  · simp [MarketState.setDeal, MarketState.dealOf, List.lookup, h]
  · have hb : (j == i) = false := beq_eq_false_iff_ne.mpr h
    simp [MarketState.setDeal, MarketState.dealOf, List.lookup, h, hb]

theorem dealOf_setProvider (σ : MarketState) (a i : Nat) (p : ProviderProfile) :
    (σ.setProvider a p).dealOf i = σ.dealOf i := rfl


theorem createDealEffect_dealOf_self (σ : MarketState) (caller now provider
    fileSize duration : Nat) :
    (createDealEffect σ caller now provider fileSize duration).dealOf
        σ.dealIdCounter =
      { dealId := σ.dealIdCounter, provider := provider, renter := caller
        fileSize := fileSize
        pricePerByte := (σ.providerOf provider).pricePerByte
        duration := duration, startTime := now, endTime := now + duration
        isActive := true, isCompleted := false, proofHash := "" } := by
  simp [createDealEffect, MarketState.dealOf, MarketState.setDeal,
    MarketState.setProvider, List.lookup]

theorem createDealEffect_dealOf_other (σ : MarketState) (caller now provider
    fileSize duration i : Nat) (hi : i ≠ σ.dealIdCounter) :
    (createDealEffect σ caller now provider fileSize duration).dealOf i
      = σ.dealOf i := by
  have hb : (i == σ.dealIdCounter) = false := beq_eq_false_iff_ne.mpr hi
  simp [createDealEffect, MarketState.dealOf, MarketState.setDeal,
    MarketState.setProvider, List.lookup, hb]

theorem createDealEffect_providerOf (σ : MarketState) (caller now provider
    fileSize duration a : Nat) :
    (createDealEffect σ caller now provider fileSize duration).providerOf a
      = if a = provider then
          { σ.providerOf provider with usedCapacity :=
              (σ.providerOf provider).usedCapacity + fileSize }
        else σ.providerOf a := by
  by_cases h : a = provider
  · simp [createDealEffect, MarketState.providerOf, MarketState.setDeal,
      MarketState.setProvider, List.lookup, h]
  · have hb : (a == provider) = false := beq_eq_false_iff_ne.mpr h
    simp [createDealEffect, MarketState.providerOf, MarketState.setDeal,
      MarketState.setProvider, List.lookup, h, hb]

theorem createDealEffect_dealIdCounter (σ : MarketState) (caller now provider
    fileSize duration : Nat) :
    (createDealEffect σ caller now provider fileSize duration).dealIdCounter
      = σ.dealIdCounter + 1 := rfl

/-- Anatomy of a successful `createDeal`: the checks that must have
passed, the state produced and the transfers performed. -/
theorem createDeal_ok_spec {σ : MarketState} {caller now provider fileSize
    duration payment : Nat} {σ' : MarketState} {tr : List Transfer}
    (hok : createDeal σ caller now provider fileSize duration payment
      = .ok (σ', tr)) :
    σ.paused = false ∧
    (σ.providerOf provider).isActive = true ∧
    0 < fileSize ∧
    σ.minDealDuration ≤ duration ∧ duration ≤ σ.maxDealDuration ∧
    (σ.providerOf provider).usedCapacity + fileSize
      ≤ (σ.providerOf provider).totalCapacity ∧
    fileSize * (σ.providerOf provider).pricePerByte * duration ≤ payment ∧
    σ' = createDealEffect σ caller now provider fileSize duration ∧
    tr = (provider,
        fileSize * (σ.providerOf provider).pricePerByte * duration
          - fileSize * (σ.providerOf provider).pricePerByte * duration
            * σ.platformFee / 10000) ::
      (if fileSize * (σ.providerOf provider).pricePerByte * duration
          < payment then
        [(caller, payment
          - fileSize * (σ.providerOf provider).pricePerByte * duration)]
      else []) := by
  delta createDeal at hok
  simp only [] at hok
  by_cases h1 : σ.paused = true
  · rw [if_pos h1] at hok
    exact Except.noConfusion hok
  rw [if_neg h1] at hok
  by_cases h2 : ¬ (σ.providerOf provider).isActive = true
  · rw [if_pos h2] at hok
    exact Except.noConfusion hok
  rw [if_neg h2] at hok
  by_cases h3 : ¬ 0 < fileSize
  · rw [if_pos h3] at hok
    exact Except.noConfusion hok
  rw [if_neg h3] at hok
  by_cases h4 : ¬ σ.minDealDuration ≤ duration
  · rw [if_pos h4] at hok
    exact Except.noConfusion hok
  rw [if_neg h4] at hok
  by_cases h5 : ¬ duration ≤ σ.maxDealDuration
  · rw [if_pos h5] at hok
    exact Except.noConfusion hok
  rw [if_neg h5] at hok
  by_cases h6 : ¬ (σ.providerOf provider).usedCapacity + fileSize < U256
  · rw [if_pos h6] at hok
    exact Except.noConfusion hok
  rw [if_neg h6] at hok
  by_cases h7 : ¬ (σ.providerOf provider).usedCapacity + fileSize ≤ (σ.providerOf provider).totalCapacity
  · rw [if_pos h7] at hok
    exact Except.noConfusion hok
  rw [if_neg h7] at hok
  by_cases h8 : ¬ σ.dealIdCounter + 1 < U256
  · rw [if_pos h8] at hok
    exact Except.noConfusion hok
  rw [if_neg h8] at hok
  by_cases h9 : ¬ fileSize * (σ.providerOf provider).pricePerByte < U256
  · rw [if_pos h9] at hok
    exact Except.noConfusion hok
  rw [if_neg h9] at hok
  by_cases h10 : ¬ fileSize * (σ.providerOf provider).pricePerByte * duration < U256
  · rw [if_pos h10] at hok
    exact Except.noConfusion hok
  rw [if_neg h10] at hok
  by_cases h11 : ¬ fileSize * (σ.providerOf provider).pricePerByte * duration ≤ payment
  · rw [if_pos h11] at hok
    exact Except.noConfusion hok
  rw [if_neg h11] at hok
  by_cases h12 : ¬ now + duration < U256
  · rw [if_pos h12] at hok
    exact Except.noConfusion hok
  rw [if_neg h12] at hok
  by_cases h13 : ¬ fileSize * (σ.providerOf provider).pricePerByte * duration * σ.platformFee < U256
  · rw [if_pos h13] at hok
    exact Except.noConfusion hok
  rw [if_neg h13] at hok
  by_cases h14 : ¬ fileSize * (σ.providerOf provider).pricePerByte * duration * σ.platformFee / 10000 ≤ fileSize * (σ.providerOf provider).pricePerByte * duration
  · rw [if_pos h14] at hok
    exact Except.noConfusion hok
  rw [if_neg h14] at hok
  simp only [Except.ok.injEq, Prod.mk.injEq] at hok
  obtain ⟨rfl, rfl⟩ := hok
  simp only [not_not] at h2 h3 h4 h5 h7 h11
  simp only [Bool.not_eq_true] at h1
  exact ⟨h1, h2, h3, h4, h5, h7, h11, rfl, rfl⟩

theorem completeDealEffect_providerOf (σ : MarketState)
    (dealId newRep a : Nat) :
    (completeDealEffect σ dealId newRep).providerOf a =
      if a = (σ.dealOf dealId).provider then
        { σ.providerOf (σ.dealOf dealId).provider with
          usedCapacity := (σ.providerOf (σ.dealOf dealId).provider).usedCapacity
            - (σ.dealOf dealId).fileSize
          reputation := newRep }
      else σ.providerOf a := by
  simp [completeDealEffect, providerOf_setProvider, providerOf_setDeal]

theorem completeDealEffect_dealOf (σ : MarketState) (dealId newRep i : Nat) :
    (completeDealEffect σ dealId newRep).dealOf i =
      if i = dealId then
        { σ.dealOf dealId with isActive := false, isCompleted := true }
      else σ.dealOf i := by
  simp [completeDealEffect, dealOf_setProvider, dealOf_setDeal]

theorem cancelDealEffect_providerOf (σ : MarketState) (dealId a : Nat) :
    (cancelDealEffect σ dealId).providerOf a =
      if a = (σ.dealOf dealId).provider then
        { σ.providerOf (σ.dealOf dealId).provider with
          usedCapacity := (σ.providerOf (σ.dealOf dealId).provider).usedCapacity
            - (σ.dealOf dealId).fileSize }
      else σ.providerOf a := by
  simp [cancelDealEffect, providerOf_setProvider, providerOf_setDeal]

theorem cancelDealEffect_dealOf (σ : MarketState) (dealId i : Nat) :
    (cancelDealEffect σ dealId).dealOf i =
      if i = dealId then { σ.dealOf dealId with isActive := false }
      else σ.dealOf i := by
  simp [cancelDealEffect, dealOf_setProvider, dealOf_setDeal]

/-- Anatomy of a successful `registerProvider`. -/
theorem registerProvider_ok_spec {σ : MarketState} {caller cap price : Nat}
    {loc : String} {σ' : MarketState}
    (hok : registerProvider σ caller cap price loc = .ok σ') :
    0 < cap ∧ 0 < price ∧ (σ.providerOf caller).isActive = false ∧
    σ' = σ.setProvider caller
      { provider := caller, totalCapacity := cap, usedCapacity := 0
        reputation := 100, isActive := true, location := loc
        pricePerByte := price } := by
  delta registerProvider at hok
  split at hok <;> try exact Except.noConfusion hok
  split at hok <;> try exact Except.noConfusion hok
  split at hok <;> try exact Except.noConfusion hok
  rename_i h1 h2 h3
  simp only [Except.ok.injEq] at hok
  simp only [not_not, not_lt] at *
  exact ⟨by omega, by omega, by simpa using h3, hok.symm⟩

/-- Anatomy of a successful `submitProof`. -/
theorem submitProof_ok_spec {σ : MarketState} {caller now dealId : Nat}
    {proofHash : String} {σ' : MarketState}
    (hok : submitProof σ caller now dealId proofHash = .ok σ') :
    (σ.dealOf dealId).provider = caller ∧
    (σ.dealOf dealId).isActive = true ∧
    now < (σ.dealOf dealId).endTime ∧
    σ' = σ.setDeal dealId { σ.dealOf dealId with proofHash := proofHash } := by
  delta submitProof at hok
  simp only [] at hok
  split at hok <;> try exact Except.noConfusion hok
  split at hok <;> try exact Except.noConfusion hok
  split at hok <;> try exact Except.noConfusion hok
  rename_i h1 h2 h3
  simp only [Except.ok.injEq] at hok
  simp only [not_not] at *
  exact ⟨h1, h2, h3, hok.symm⟩

/-- Anatomy of a successful `updateProviderCapacity`. -/
theorem updateProviderCapacity_ok_spec {σ : MarketState}
    {caller newCapacity : Nat} {σ' : MarketState}
    (hok : updateProviderCapacity σ caller newCapacity = .ok σ') :
    (σ.providerOf caller).isActive = true ∧
    (σ.providerOf caller).usedCapacity ≤ newCapacity ∧
    σ' = σ.setProvider caller
      { σ.providerOf caller with totalCapacity := newCapacity } := by
  delta updateProviderCapacity at hok
  simp only [] at hok
  split at hok <;> try exact Except.noConfusion hok
  split at hok <;> try exact Except.noConfusion hok
  rename_i h1 h2
  simp only [Except.ok.injEq] at hok
  simp only [not_not] at *
  exact ⟨h1, h2, hok.symm⟩

/-- Anatomy of a successful `updateProviderPrice`. -/
theorem updateProviderPrice_ok_spec {σ : MarketState}
    {caller newPrice : Nat} {σ' : MarketState}
    (hok : updateProviderPrice σ caller newPrice = .ok σ') :
    (σ.providerOf caller).isActive = true ∧ 0 < newPrice ∧
    σ' = σ.setProvider caller
      { σ.providerOf caller with pricePerByte := newPrice } := by
  delta updateProviderPrice at hok
  simp only [] at hok
  split at hok <;> try exact Except.noConfusion hok
  split at hok <;> try exact Except.noConfusion hok
  rename_i h1 h2
  simp only [Except.ok.injEq] at hok
  simp only [not_not] at *
  exact ⟨h1, h2, hok.symm⟩

/-- Anatomy of a successful `deactivateProvider`. -/
theorem deactivateProvider_ok_spec {σ : MarketState} {caller : Nat}
    {σ' : MarketState}
    (hok : deactivateProvider σ caller = .ok σ') :
    (σ.providerOf caller).isActive = true ∧
    (σ.providerOf caller).usedCapacity = 0 ∧
    σ' = σ.setProvider caller
      { σ.providerOf caller with isActive := false } := by
  delta deactivateProvider at hok
  simp only [] at hok
  split at hok <;> try exact Except.noConfusion hok
  split at hok <;> try exact Except.noConfusion hok
  rename_i h1 h2
  simp only [Except.ok.injEq] at hok
  simp only [not_not] at *
  exact ⟨h1, h2, hok.symm⟩

/-- Anatomy of a successful `completeDeal`. -/
theorem completeDeal_ok_spec {σ : MarketState} {caller now dealId : Nat}
    {σ' : MarketState}
    (hok : completeDeal σ caller now dealId = .ok σ') :
    ((σ.dealOf dealId).renter = caller
      ∨ (σ.dealOf dealId).provider = caller) ∧
    (σ.dealOf dealId).isActive = true ∧
    (σ.dealOf dealId).endTime ≤ now ∧
    (σ.dealOf dealId).fileSize
      ≤ (σ.providerOf (σ.dealOf dealId).provider).usedCapacity ∧
    ((0 < (σ.dealOf dealId).proofHash.length ∧
        σ' = completeDealEffect σ dealId
          ((σ.providerOf (σ.dealOf dealId).provider).reputation + 10)) ∨
     ((σ.dealOf dealId).proofHash.length = 0 ∧
        5 ≤ (σ.providerOf (σ.dealOf dealId).provider).reputation ∧
        σ' = completeDealEffect σ dealId
          ((σ.providerOf (σ.dealOf dealId).provider).reputation - 5))) := by
  delta completeDeal at hok
  simp only [] at hok
  by_cases h1 : ¬ ((σ.dealOf dealId).renter = caller
      ∨ (σ.dealOf dealId).provider = caller)
  · rw [if_pos h1] at hok
    exact Except.noConfusion hok
  rw [if_neg h1] at hok
  by_cases h2 : ¬ (σ.dealOf dealId).isActive = true
  · rw [if_pos h2] at hok
    exact Except.noConfusion hok
  rw [if_neg h2] at hok
  by_cases h3 : ¬ (σ.dealOf dealId).endTime ≤ now
  · rw [if_pos h3] at hok
    exact Except.noConfusion hok
  rw [if_neg h3] at hok
  by_cases h4 : ¬ (σ.dealOf dealId).fileSize
      ≤ (σ.providerOf (σ.dealOf dealId).provider).usedCapacity
  · rw [if_pos h4] at hok
    exact Except.noConfusion hok
  rw [if_neg h4] at hok
  simp only [not_not] at h1 h2 h3 h4
  by_cases h5 : 0 < (σ.dealOf dealId).proofHash.length
  · rw [if_pos h5] at hok
    by_cases h6 : ¬ (σ.providerOf (σ.dealOf dealId).provider).reputation + 10
        < U256
    · rw [if_pos h6] at hok
      exact Except.noConfusion hok
    rw [if_neg h6] at hok
    simp only [Except.ok.injEq] at hok
    exact ⟨h1, h2, h3, h4, .inl ⟨h5, hok.symm⟩⟩
  · rw [if_neg h5] at hok
    by_cases h6 : ¬ 5 ≤ (σ.providerOf (σ.dealOf dealId).provider).reputation
    · rw [if_pos h6] at hok
      exact Except.noConfusion hok
    rw [if_neg h6] at hok
    simp only [not_not] at h6
    simp only [Except.ok.injEq] at hok
    exact ⟨h1, h2, h3, h4, .inr ⟨by omega, h6, hok.symm⟩⟩

/-- Anatomy of a successful `cancelDeal`. -/
theorem cancelDeal_ok_spec {σ : MarketState} {caller now dealId : Nat}
    {σ' : MarketState} {tr : List Transfer}
    (hok : cancelDeal σ caller now dealId = .ok (σ', tr)) :
    (σ.dealOf dealId).renter = caller ∧
    (σ.dealOf dealId).isActive = true ∧
    now < (σ.dealOf dealId).startTime ∧
    (σ.dealOf dealId).fileSize
      ≤ (σ.providerOf (σ.dealOf dealId).provider).usedCapacity ∧
    σ' = cancelDealEffect σ dealId ∧
    tr = [((σ.dealOf dealId).renter,
      (σ.dealOf dealId).fileSize * (σ.dealOf dealId).pricePerByte
        * (σ.dealOf dealId).duration)] := by
  delta cancelDeal at hok
  simp only [] at hok
  by_cases h1 : ¬ (σ.dealOf dealId).renter = caller
  · rw [if_pos h1] at hok
    exact Except.noConfusion hok
  rw [if_neg h1] at hok
  by_cases h2 : ¬ (σ.dealOf dealId).isActive = true
  · rw [if_pos h2] at hok
    exact Except.noConfusion hok
  rw [if_neg h2] at hok
  by_cases h3 : ¬ now < (σ.dealOf dealId).startTime
  · rw [if_pos h3] at hok
    exact Except.noConfusion hok
  rw [if_neg h3] at hok
  by_cases h4 : ¬ (σ.dealOf dealId).fileSize
      ≤ (σ.providerOf (σ.dealOf dealId).provider).usedCapacity
  · rw [if_pos h4] at hok
    exact Except.noConfusion hok
  rw [if_neg h4] at hok
  by_cases h5 : ¬ (σ.dealOf dealId).fileSize * (σ.dealOf dealId).pricePerByte
      < U256
  · rw [if_pos h5] at hok
    exact Except.noConfusion hok
  rw [if_neg h5] at hok
  by_cases h6 : ¬ (σ.dealOf dealId).fileSize * (σ.dealOf dealId).pricePerByte
      * (σ.dealOf dealId).duration < U256
  · rw [if_pos h6] at hok
    exact Except.noConfusion hok
  rw [if_neg h6] at hok
  simp only [not_not] at h1 h2 h3 h4
  simp only [Except.ok.injEq, Prod.mk.injEq] at hok
  obtain ⟨rfl, rfl⟩ := hok
  exact ⟨h1, h2, h3, h4, rfl, rfl⟩

theorem capInv_setProvider {σ : MarketState} {a : Nat} {p : ProviderProfile}
    (h : CapInv σ) (hp : p.usedCapacity ≤ p.totalCapacity) :
    CapInv (σ.setProvider a p) := by
  intro b
  rw [providerOf_setProvider]
  split
  · exact hp
  · exact h b

/-- Every marketplace call preserves the capacity invariant. -/
theorem capInv_step {σ : MarketState} (op : MOp) (h : CapInv σ) :
    CapInv (step σ op) := by
  cases op with
  | register caller cap price loc =>
    simp only [step]
    cases hres : registerProvider σ caller cap price loc with
    | error e => exact h
    | ok σ' =>
      obtain ⟨-, -, -, rfl⟩ := registerProvider_ok_spec hres
      exact capInv_setProvider h (Nat.zero_le _)
  | create caller now provider fileSize duration payment =>
    simp only [step]
    cases hres : createDeal σ caller now provider fileSize duration payment with
    | error e => exact h
    | ok res =>
      obtain ⟨σ', tr⟩ := res
      obtain ⟨-, -, -, -, -, hcap, -, rfl, -⟩ := createDeal_ok_spec hres
      intro a
      rw [createDealEffect_providerOf]
      split
      · simpa using hcap
      · exact h a
  | proof caller now dealId proofHash =>
    simp only [step]
    cases hres : submitProof σ caller now dealId proofHash with
    | error e => exact h
    | ok σ' =>
      obtain ⟨-, -, -, rfl⟩ := submitProof_ok_spec hres
      exact h
  | complete caller now dealId =>
    simp only [step]
    cases hres : completeDeal σ caller now dealId with
    | error e => exact h
    | ok σ' =>
      obtain ⟨-, -, -, hfs, hcase⟩ := completeDeal_ok_spec hres
      have key : ∀ newRep, CapInv (completeDealEffect σ dealId newRep) := by
        intro newRep a
        rw [completeDealEffect_providerOf]
        split
        · have := h (σ.dealOf dealId).provider
          simp only []
          omega
        · exact h a
      rcases hcase with ⟨-, rfl⟩ | ⟨-, -, rfl⟩ <;> exact key _
  | cancel caller now dealId =>
    simp only [step]
    cases hres : cancelDeal σ caller now dealId with
    | error e => exact h
    | ok res =>
      obtain ⟨σ', tr⟩ := res
      obtain ⟨-, -, -, hfs, rfl, -⟩ := cancelDeal_ok_spec hres
      intro a
      rw [cancelDealEffect_providerOf]
      split
      · have := h (σ.dealOf dealId).provider
        simp only []
        omega
      · exact h a
  | updateCapacity caller newCapacity =>
    simp only [step]
    cases hres : updateProviderCapacity σ caller newCapacity with
    | error e => exact h
    | ok σ' =>
      obtain ⟨-, hle, rfl⟩ := updateProviderCapacity_ok_spec hres
      exact capInv_setProvider h hle
  | updatePrice caller newPrice =>
    simp only [step]
    cases hres : updateProviderPrice σ caller newPrice with
    | error e => exact h
    | ok σ' =>
      obtain ⟨-, -, rfl⟩ := updateProviderPrice_ok_spec hres
      exact capInv_setProvider h (h caller)
  | deactivate caller =>
    simp only [step]
    cases hres : deactivateProvider σ caller with
    | error e => exact h
    | ok σ' =>
      obtain ⟨-, -, rfl⟩ := deactivateProvider_ok_spec hres
      exact capInv_setProvider h (h caller)

theorem capInv_foldl : ∀ (ops : List MOp) (σ : MarketState),
    CapInv σ → CapInv (ops.foldl step σ)
  | [], _, h => h
  | op :: ops, σ, h => capInv_foldl ops _ (capInv_step op h)

theorem capInv_initial : CapInv initialMarketState := by
  intro a
  exact Nat.le_refl _

/-!
## The claims
-/

/-- **C1.** For every provider and after every sequence of marketplace
operations, `0 ≤ usedCapacity ≤ totalCapacity` holds; `createDeal` only
increments `usedCapacity` (by exactly `fileSize`) when
`usedCapacity + fileSize ≤ totalCapacity` held before the call; and
`updateProviderCapacity` rejects any `newCapacity` below the provider's
current `usedCapacity`. -/
theorem C1_capacity_invariant :
    (∀ (ops : List MOp) (a : Nat),
      0 ≤ ((runOps ops).providerOf a).usedCapacity ∧
      ((runOps ops).providerOf a).usedCapacity
        ≤ ((runOps ops).providerOf a).totalCapacity) ∧
    (∀ (σ : MarketState) (caller now provider fileSize duration payment : Nat)
        (σ' : MarketState) (tr : List Transfer),
      createDeal σ caller now provider fileSize duration payment
          = .ok (σ', tr) →
      (σ.providerOf provider).usedCapacity + fileSize
          ≤ (σ.providerOf provider).totalCapacity ∧
      (σ'.providerOf provider).usedCapacity
          = (σ.providerOf provider).usedCapacity + fileSize) ∧
    (∀ (σ : MarketState) (caller newCapacity : Nat),
      (σ.providerOf caller).isActive = true →
      newCapacity < (σ.providerOf caller).usedCapacity →
      updateProviderCapacity σ caller newCapacity
        = .error .newCapacityTooSmall) := by
  refine ⟨?_, ?_, ?_⟩
  · intro ops a
    exact ⟨Nat.zero_le _, capInv_foldl ops initialMarketState capInv_initial a⟩
  · intro σ caller now provider fileSize duration payment σ' tr hok
    obtain ⟨-, -, -, -, -, hcap, -, rfl, -⟩ := createDeal_ok_spec hok
    refine ⟨hcap, ?_⟩
    rw [createDealEffect_providerOf]
    simp
  · intro σ caller newCapacity hact hlt
    delta updateProviderCapacity
    simp only []
    rw [if_neg (by simp [hact]), if_pos (by omega)]

def w1Sigma : MarketState := runOps [.register 1 100 2 ""]

def w1Res : MarketState × List Transfer :=
  ((createDeal w1Sigma 2 50 1 10 3600 72000).toOption).getD (w1Sigma, [])

/-- Concrete instance of `C1_capacity_invariant` with every hypothesis
discharged: one registration, one successful deal, one rejected
capacity shrink. -/
theorem C1_capacity_invariant_witness :
    (0 ≤ ((runOps [.register 1 100 2 ""]).providerOf 1).usedCapacity ∧
      ((runOps [.register 1 100 2 ""]).providerOf 1).usedCapacity
        ≤ ((runOps [.register 1 100 2 ""]).providerOf 1).totalCapacity) ∧
    ((w1Sigma.providerOf 1).usedCapacity + 10
        ≤ (w1Sigma.providerOf 1).totalCapacity ∧
      (w1Res.1.providerOf 1).usedCapacity
        = (w1Sigma.providerOf 1).usedCapacity + 10) ∧
    updateProviderCapacity w1Res.1 1 5 = .error .newCapacityTooSmall := by
  refine ⟨C1_capacity_invariant.1 [.register 1 100 2 ""] 1, ?_, ?_⟩
  · exact C1_capacity_invariant.2.1 w1Sigma 2 50 1 10 3600 72000 w1Res.1
      w1Res.2 rfl
  · exact C1_capacity_invariant.2.2 w1Res.1 1 5 (by decide) (by decide)

def c2Deal : StorageDeal :=
  { dealId := 0, provider := 5, renter := 1, fileSize := 10, pricePerByte := 2
    duration := 3600, startTime := 100, endTime := 3700, isActive := true
    isCompleted := false, proofHash := "" }

def c2Sigma : MarketState :=
  (initialMarketState.setDeal 0 c2Deal).setProvider 5
    { provider := 5, totalCapacity := 100, usedCapacity := 10
      reputation := 100, isActive := true, location := ""
      pricePerByte := 2 }

/-- **C2 counterexample.**  A `cancelDeal` call on an Active deal before
its `startTime` but from an address that is not the renter fails with
the authorization error `Only renter can cancel`, which is not a
`StateError` — refuting the claim that every `cancelDeal` failure is a
`StateError`. -/
theorem C2_counterexample :
    (c2Sigma.dealOf 0).isActive = true ∧
    (0 : Nat) < (c2Sigma.dealOf 0).startTime ∧
    (c2Sigma.dealOf 0).renter ≠ 2 ∧
    cancelDeal c2Sigma 2 0 0 = .error .onlyRenterCanCancel ∧
    MErr.onlyRenterCanCancel.isStateError = false :=
  ⟨by decide, by decide, by decide, rfl, rfl⟩

/-- **C2 (amended).**  `cancelDeal` succeeds only when called by the
deal's renter while the deal is Active and strictly before `startTime`;
on success it releases exactly `fileSize` bytes back to the provider and
refunds the full deal price `fileSize * pricePerByte * duration`.  A
renter's call outside the Active/pre-start window fails with a
`StateError`, but a call by anyone other than the renter fails with the
authorization error `Only renter can cancel`, not a `StateError`. -/
theorem C2_cancelDeal_spec :
    (∀ (σ : MarketState) (caller now dealId : Nat) (σ' : MarketState)
        (tr : List Transfer),
      cancelDeal σ caller now dealId = .ok (σ', tr) →
        (σ.dealOf dealId).renter = caller ∧
        (σ.dealOf dealId).isActive = true ∧
        now < (σ.dealOf dealId).startTime ∧
        (σ.dealOf dealId).fileSize
          ≤ (σ.providerOf (σ.dealOf dealId).provider).usedCapacity ∧
        (σ'.providerOf (σ.dealOf dealId).provider).usedCapacity
          = (σ.providerOf (σ.dealOf dealId).provider).usedCapacity
            - (σ.dealOf dealId).fileSize ∧
        tr = [((σ.dealOf dealId).renter,
          (σ.dealOf dealId).fileSize * (σ.dealOf dealId).pricePerByte
            * (σ.dealOf dealId).duration)]) ∧
    (∀ (σ : MarketState) (caller now dealId : Nat),
      (σ.dealOf dealId).renter ≠ caller →
      cancelDeal σ caller now dealId = .error .onlyRenterCanCancel ∧
      MErr.onlyRenterCanCancel.isStateError = false) ∧
    (∀ (σ : MarketState) (caller now dealId : Nat),
      (σ.dealOf dealId).renter = caller →
      ((σ.dealOf dealId).isActive = false
        ∨ (σ.dealOf dealId).startTime ≤ now) →
      ∃ e, cancelDeal σ caller now dealId = .error e
        ∧ e.isStateError = true) := by
  refine ⟨?_, ?_, ?_⟩
  · intro σ caller now dealId σ' tr hok
    obtain ⟨h1, h2, h3, h4, rfl, rfl⟩ := cancelDeal_ok_spec hok
    refine ⟨h1, h2, h3, h4, ?_, rfl⟩
    rw [cancelDealEffect_providerOf, if_pos rfl]
  · intro σ caller now dealId hr
    delta cancelDeal
    simp only []
    rw [if_pos hr]
    exact ⟨rfl, rfl⟩
  · intro σ caller now dealId hr hbad
    delta cancelDeal
    simp only []
    rw [if_neg (by simp [hr])]
    by_cases hact : (σ.dealOf dealId).isActive = true
    · rcases hbad with hinact | hlate
      · rw [hact] at hinact
        exact absurd hinact (by decide)
      · rw [if_neg (by simp [hact]), if_pos (by omega)]
        exact ⟨.dealAlreadyStarted, rfl, rfl⟩
    · rw [if_pos (by simpa using hact)]
      exact ⟨.dealNotActive, rfl, rfl⟩

def w2Res : MarketState × List Transfer :=
  ((cancelDeal c2Sigma 1 0 0).toOption).getD (c2Sigma, [])

/-- Concrete instance of `C2_cancelDeal_spec` with every hypothesis
discharged: a successful renter cancellation before start, a rejected
third-party cancellation, and a rejected renter cancellation after
start. -/
theorem C2_cancelDeal_spec_witness :
    ((c2Sigma.dealOf 0).renter = 1 ∧
      (c2Sigma.dealOf 0).isActive = true ∧
      (0 : Nat) < (c2Sigma.dealOf 0).startTime ∧
      (c2Sigma.dealOf 0).fileSize
        ≤ (c2Sigma.providerOf (c2Sigma.dealOf 0).provider).usedCapacity ∧
      (w2Res.1.providerOf (c2Sigma.dealOf 0).provider).usedCapacity
        = (c2Sigma.providerOf (c2Sigma.dealOf 0).provider).usedCapacity
          - (c2Sigma.dealOf 0).fileSize ∧
      w2Res.2 = [((c2Sigma.dealOf 0).renter,
        (c2Sigma.dealOf 0).fileSize * (c2Sigma.dealOf 0).pricePerByte
          * (c2Sigma.dealOf 0).duration)]) ∧
    (cancelDeal c2Sigma 2 0 0 = .error .onlyRenterCanCancel ∧
      MErr.onlyRenterCanCancel.isStateError = false) ∧
    (∃ e, cancelDeal c2Sigma 1 200 0 = .error e
      ∧ e.isStateError = true) := by
  refine ⟨?_, ?_, ?_⟩
  · exact C2_cancelDeal_spec.1 c2Sigma 1 0 0 w2Res.1 w2Res.2 rfl
  · exact C2_cancelDeal_spec.2.1 c2Sigma 2 0 0 (by decide)
  · exact C2_cancelDeal_spec.2.2 c2Sigma 1 200 0 (by decide)
      (Or.inr (by decide))

/-- **C3.** Any `createDeal` call with `payment < totalPrice`
(`totalPrice = fileSize * pricePerByte * duration` at the provider's
current price) fails, and a failed call leaves the contract state
unchanged (the revert); when all the earlier validations pass, the
failure is specifically the `PaymentError` `Insufficient payment`. -/
theorem C3_payment_error :
    (∀ (σ : MarketState) (caller now provider fileSize duration payment : Nat),
      payment < fileSize * (σ.providerOf provider).pricePerByte * duration →
      (∃ e, createDeal σ caller now provider fileSize duration payment
          = .error e) ∧
      step σ (.create caller now provider fileSize duration payment) = σ) ∧
    (∀ (σ : MarketState) (caller now provider fileSize duration payment : Nat),
      σ.paused = false →
      (σ.providerOf provider).isActive = true →
      0 < fileSize →
      σ.minDealDuration ≤ duration →
      duration ≤ σ.maxDealDuration →
      (σ.providerOf provider).usedCapacity + fileSize < U256 →
      (σ.providerOf provider).usedCapacity + fileSize
        ≤ (σ.providerOf provider).totalCapacity →
      σ.dealIdCounter + 1 < U256 →
      fileSize * (σ.providerOf provider).pricePerByte < U256 →
      fileSize * (σ.providerOf provider).pricePerByte * duration < U256 →
      payment < fileSize * (σ.providerOf provider).pricePerByte * duration →
      createDeal σ caller now provider fileSize duration payment
        = .error .insufficientPayment) := by
  constructor
  · intro σ caller now provider fileSize duration payment hlt
    have herr : ∃ e, createDeal σ caller now provider fileSize duration payment
        = .error e := by
      cases hres : createDeal σ caller now provider fileSize duration payment with
      | error e => exact ⟨e, rfl⟩
      | ok res =>
        obtain ⟨σ', tr⟩ := res
        obtain ⟨-, -, -, -, -, -, hpay, -, -⟩ := createDeal_ok_spec hres
        omega
    obtain ⟨e, he⟩ := herr
    refine ⟨⟨e, he⟩, ?_⟩
    simp only [step, he]
  · intro σ caller now provider fileSize duration payment hp hact h3 h4 h5 h6
      h7 h8 h9 h10 hlt
    delta createDeal
    simp only []
    rw [if_neg (by simp [hp]), if_neg (by simp [hact]),
      if_neg (not_not_intro h3), if_neg (not_not_intro h4),
      if_neg (not_not_intro h5), if_neg (not_not_intro h6),
      if_neg (not_not_intro h7), if_neg (not_not_intro h8),
      if_neg (not_not_intro h9), if_neg (not_not_intro h10),
      if_pos (Nat.not_le.mpr hlt)]

def w3Sigma : MarketState := runOps [.register 1 100 2 ""]

/-- Concrete instance of `C3_payment_error`: paying 100 wei for a deal
whose price is 72000 wei fails with `Insufficient payment` and leaves
the state unchanged. -/
theorem C3_payment_error_witness :
    ((∃ e, createDeal w3Sigma 2 50 1 10 3600 100 = .error e) ∧
      step w3Sigma (.create 2 50 1 10 3600 100) = w3Sigma) ∧
    createDeal w3Sigma 2 50 1 10 3600 100 = .error .insufficientPayment := by
  refine ⟨C3_payment_error.1 w3Sigma 2 50 1 10 3600 100 (by decide), ?_⟩
  exact C3_payment_error.2 w3Sigma 2 50 1 10 3600 100 (by decide) (by decide)
    (by decide) (by decide) (by decide) (by decide) (by decide) (by decide)
    (by decide) (by decide) (by decide)

/-- **C4.** A successful `createDeal` with `payment ≥ totalPrice` pays
the provider exactly `totalPrice - totalPrice * platformFee / 10000`,
refunds the renter exactly `payment - totalPrice` (no transfer when the
excess is zero), and reserves exactly `fileSize` bytes; in the spec's
end-to-end scenario (1 MB, 3600 s, 1 wei/byte, 5,000,000,000 wei paid)
`totalPrice` is 3,600,000,000 wei and the refund 1,400,000,000 wei. -/
theorem C4_payment_split :
    (∀ (σ : MarketState) (caller now provider fileSize duration payment : Nat)
        (σ' : MarketState) (tr : List Transfer),
      createDeal σ caller now provider fileSize duration payment
          = .ok (σ', tr) →
      fileSize * (σ.providerOf provider).pricePerByte * duration ≤ payment ∧
      tr = (provider,
          fileSize * (σ.providerOf provider).pricePerByte * duration
            - fileSize * (σ.providerOf provider).pricePerByte * duration
              * σ.platformFee / 10000) ::
        (if fileSize * (σ.providerOf provider).pricePerByte * duration
            < payment then
          [(caller, payment
            - fileSize * (σ.providerOf provider).pricePerByte * duration)]
        else []) ∧
      (σ'.providerOf provider).usedCapacity
        = (σ.providerOf provider).usedCapacity + fileSize) ∧
    ((1000000 : Nat) * ((runOps [.register 1 2000000 1 ""]).providerOf 1).pricePerByte
        * 3600 = 3600000000 ∧
      (5000000000 : Nat) - 3600000000 = 1400000000) := by
  constructor
  · intro σ caller now provider fileSize duration payment σ' tr hok
    obtain ⟨-, -, -, -, -, -, hpay, rfl, htr⟩ := createDeal_ok_spec hok
    refine ⟨hpay, htr, ?_⟩
    rw [createDealEffect_providerOf]
    simp
  · exact ⟨by decide, by decide⟩

def w4Sigma : MarketState := runOps [.register 1 2000000 1 ""]

def w4Res : MarketState × List Transfer :=
  ((createDeal w4Sigma 2 1000 1 1000000 3600 5000000000).toOption).getD
    (w4Sigma, [])

/-- Concrete instance of `C4_payment_split` on the spec's end-to-end
scenario: the provider receives 3,510,000,000 wei (3,600,000,000 minus
the 2.5% fee), the renter is refunded 1,400,000,000 wei, and 1,000,000
bytes are reserved. -/
theorem C4_payment_split_witness :
    (1000000 * (w4Sigma.providerOf 1).pricePerByte * 3600 ≤ 5000000000 ∧
      w4Res.2 = (1, 1000000 * (w4Sigma.providerOf 1).pricePerByte * 3600
          - 1000000 * (w4Sigma.providerOf 1).pricePerByte * 3600
            * w4Sigma.platformFee / 10000) ::
        (if 1000000 * (w4Sigma.providerOf 1).pricePerByte * 3600
            < 5000000000 then
          [(2, 5000000000
            - 1000000 * (w4Sigma.providerOf 1).pricePerByte * 3600)]
        else []) ∧
      (w4Res.1.providerOf 1).usedCapacity
        = (w4Sigma.providerOf 1).usedCapacity + 1000000) ∧
    w4Res.2 = [(1, 3510000000), (2, 1400000000)] := by
  refine ⟨C4_payment_split.1 w4Sigma 2 1000 1 1000000 3600 5000000000
    w4Res.1 w4Res.2 rfl, ?_⟩
  decide

/-- Converse of `createDeal_ok_spec`: when every check passes,
`createDeal` succeeds and performs exactly the `createDealEffect`
writes. -/
theorem createDeal_ok_intro (σ : MarketState)
    (caller now provider fileSize duration payment : Nat)
    (hp : σ.paused = false)
    (hact : (σ.providerOf provider).isActive = true)
    (hfs : 0 < fileSize)
    (hmin : σ.minDealDuration ≤ duration)
    (hmax : duration ≤ σ.maxDealDuration)
    (hov1 : (σ.providerOf provider).usedCapacity + fileSize < U256)
    (hcap : (σ.providerOf provider).usedCapacity + fileSize
      ≤ (σ.providerOf provider).totalCapacity)
    (hov2 : σ.dealIdCounter + 1 < U256)
    (hov3 : fileSize * (σ.providerOf provider).pricePerByte < U256)
    (hov4 : fileSize * (σ.providerOf provider).pricePerByte * duration < U256)
    (hpay : fileSize * (σ.providerOf provider).pricePerByte * duration
      ≤ payment)
    (hov5 : now + duration < U256)
    (hov6 : fileSize * (σ.providerOf provider).pricePerByte * duration
      * σ.platformFee < U256)
    (hfee : fileSize * (σ.providerOf provider).pricePerByte * duration
        * σ.platformFee / 10000
      ≤ fileSize * (σ.providerOf provider).pricePerByte * duration) :
    createDeal σ caller now provider fileSize duration payment
      = .ok (createDealEffect σ caller now provider fileSize duration,
        (provider,
          fileSize * (σ.providerOf provider).pricePerByte * duration
            - fileSize * (σ.providerOf provider).pricePerByte * duration
              * σ.platformFee / 10000) ::
        (if fileSize * (σ.providerOf provider).pricePerByte * duration
            < payment then
          [(caller, payment
            - fileSize * (σ.providerOf provider).pricePerByte * duration)]
        else [])) := by
  delta createDeal
  simp only []
  rw [if_neg (by simp [hp]), if_neg (not_not_intro hact),
    if_neg (not_not_intro hfs), if_neg (not_not_intro hmin),
    if_neg (not_not_intro hmax), if_neg (not_not_intro hov1),
    if_neg (not_not_intro hcap), if_neg (not_not_intro hov2),
    if_neg (not_not_intro hov3), if_neg (not_not_intro hov4),
    if_neg (not_not_intro hpay), if_neg (not_not_intro hov5),
    if_neg (not_not_intro hov6), if_neg (not_not_intro hfee)]

/-- Converse of `completeDeal_ok_spec` on the empty-proof branch: with
an authorized caller, an Active expired deal, no recorded proof and
`reputation ≥ 5`, `completeDeal` succeeds and subtracts 5 reputation. -/
theorem completeDeal_ok_intro_empty (σ : MarketState)
    (caller now dealId : Nat)
    (hauth : (σ.dealOf dealId).renter = caller
      ∨ (σ.dealOf dealId).provider = caller)
    (hact : (σ.dealOf dealId).isActive = true)
    (hend : (σ.dealOf dealId).endTime ≤ now)
    (hfs : (σ.dealOf dealId).fileSize
      ≤ (σ.providerOf (σ.dealOf dealId).provider).usedCapacity)
    (hlen : (σ.dealOf dealId).proofHash.length = 0)
    (hrep : 5 ≤ (σ.providerOf (σ.dealOf dealId).provider).reputation) :
    completeDeal σ caller now dealId
      = .ok (completeDealEffect σ dealId
        ((σ.providerOf (σ.dealOf dealId).provider).reputation - 5)) := by
  delta completeDeal
  simp only []
  rw [if_neg (not_not_intro hauth), if_neg (not_not_intro hact),
    if_neg (not_not_intro hend), if_neg (not_not_intro hfs),
    if_neg (by omega), if_neg (not_not_intro hrep)]

theorem lt_U256_of_le {n : Nat} (h : n ≤ 10 ^ 12) : n < U256 :=
  lt_of_le_of_lt h (by norm_num [U256])

/-- Register provider 1 with 100 bytes at 1 wei, then run `k` cycles of
"rent one byte for an hour, complete it with no proof" — each cycle
costs the provider 5 reputation. -/
def pump : Nat → MarketState
  | 0 => step initialMarketState (.register 1 100 1 "")
  | k + 1 =>
    step (step (pump k) (.create 2 (10000 * k) 1 1 3600 3600))
      (.complete 2 (10000 * k + 3600) k)

/-- After `k ≤ 20` pump cycles the provider's profile is fully
determined: zero used capacity and reputation `100 - 5k`. -/
theorem pump_spec : ∀ k, k ≤ 20 →
    (pump k).providerOf 1 =
      { provider := 1, totalCapacity := 100, usedCapacity := 0
        reputation := 100 - 5 * k, isActive := true, location := ""
        pricePerByte := 1 } ∧
    (pump k).dealIdCounter = k ∧
    (pump k).minDealDuration = 3600 ∧
    (pump k).maxDealDuration = 31536000 ∧
    (pump k).platformFee = 250 ∧
    (pump k).paused = false := by
  intro k
  induction k with
  | zero =>
    intro _
    exact ⟨by decide, by decide, by decide, by decide, by decide, by decide⟩
  | succ k ih =>
    intro hk
    obtain ⟨hprof, hctr, hmin, hmax, hfee, hpause⟩ := ih (by omega)
    have hact : ((pump k).providerOf 1).isActive = true := by rw [hprof]
    have hcd := createDeal_ok_intro (pump k) 2 (10000 * k) 1 1 3600 3600
      hpause hact (by norm_num) hmin.le (by rw [hmax]; norm_num)
      (by rw [hprof]; exact lt_U256_of_le (by norm_num))
      (by rw [hprof]; norm_num)
      (by rw [hctr]; exact lt_U256_of_le (by omega))
      (by rw [hprof]; exact lt_U256_of_le (by norm_num))
      (by rw [hprof]; exact lt_U256_of_le (by norm_num))
      (by rw [hprof]; norm_num)
      (lt_U256_of_le (by omega))
      (by rw [hprof, hfee]; exact lt_U256_of_le (by norm_num))
      (by rw [hprof, hfee]; norm_num)
    set σd := createDealEffect (pump k) 2 (10000 * k) 1 1 3600 with hσddef
    have hstep1 : step (pump k) (.create 2 (10000 * k) 1 1 3600 3600)
        = σd := by
      rw [hσddef]
      simp only [step, hcd]
    have hdeald : σd.dealOf k =
        { dealId := k, provider := 1, renter := 2, fileSize := 1
          pricePerByte := 1, duration := 3600, startTime := 10000 * k
          endTime := 10000 * k + 3600, isActive := true
          isCompleted := false, proofHash := "" } := by
      have h := createDealEffect_dealOf_self (pump k) 2 (10000 * k) 1 1 3600
      rw [hctr, hprof] at h
      exact h
    have hprovd : σd.providerOf 1 =
        { provider := 1, totalCapacity := 100, usedCapacity := 1
          reputation := 100 - 5 * k, isActive := true, location := ""
          pricePerByte := 1 } := by
      have h := createDealEffect_providerOf (pump k) 2 (10000 * k) 1 1 3600 1
      rw [if_pos rfl, hprof] at h
      exact h
    have hcm := completeDeal_ok_intro_empty σd 2 (10000 * k + 3600) k
      (Or.inl (by rw [hdeald]))
      (by rw [hdeald])
      (by rw [hdeald])
      (by show (σd.dealOf k).fileSize
            ≤ (σd.providerOf (σd.dealOf k).provider).usedCapacity
          rw [hdeald]
          show (1 : Nat) ≤ (σd.providerOf 1).usedCapacity
          rw [hprovd])
      (by rw [hdeald]; rfl)
      (by show 5 ≤ (σd.providerOf (σd.dealOf k).provider).reputation
          rw [hdeald]
          show 5 ≤ (σd.providerOf 1).reputation
          rw [hprovd]
          show 5 ≤ 100 - 5 * k
          omega)
    have hrepval : (σd.providerOf (σd.dealOf k).provider).reputation - 5
        = 100 - 5 * (k + 1) := by
      rw [hdeald]
      show (σd.providerOf 1).reputation - 5 = 100 - 5 * (k + 1)
      rw [hprovd]
      show 100 - 5 * k - 5 = 100 - 5 * (k + 1)
      omega
    rw [hrepval] at hcm
    have hstep2 : pump (k + 1) = completeDealEffect σd k (100 - 5 * (k + 1))
        := by
      show step (step (pump k) (.create 2 (10000 * k) 1 1 3600 3600))
          (.complete 2 (10000 * k + 3600) k)
        = completeDealEffect σd k (100 - 5 * (k + 1))
      rw [hstep1]
      simp only [step, hcm]
    have hfin := completeDealEffect_providerOf σd k (100 - 5 * (k + 1)) 1
    rw [hdeald] at hfin
    rw [if_pos rfl] at hfin
    refine ⟨?_, ?_, ?_, ?_, ?_, ?_⟩
    · rw [hstep2, hfin]
      show { σd.providerOf 1 with
        usedCapacity := (σd.providerOf 1).usedCapacity - 1
        reputation := 100 - 5 * (k + 1) } = _
      rw [hprovd]
      rfl
    · rw [hstep2]
      show σd.dealIdCounter = k + 1
      rw [hσddef]
      show (pump k).dealIdCounter + 1 = k + 1
      omega
    · rw [hstep2]
      exact hmin
    · rw [hstep2]
      exact hmax
    · rw [hstep2]
      exact hfee
    · rw [hstep2]
      exact hpause

/-- `completeDeal` reverts with the checked-arithmetic underflow when an
authorized caller completes an expired proofless deal of a provider
whose reputation is below 5. -/
theorem completeDeal_underflow_intro (σ : MarketState)
    (caller now dealId : Nat)
    (hauth : (σ.dealOf dealId).renter = caller
      ∨ (σ.dealOf dealId).provider = caller)
    (hact : (σ.dealOf dealId).isActive = true)
    (hend : (σ.dealOf dealId).endTime ≤ now)
    (hfs : (σ.dealOf dealId).fileSize
      ≤ (σ.providerOf (σ.dealOf dealId).provider).usedCapacity)
    (hlen : (σ.dealOf dealId).proofHash.length = 0)
    (hrep : (σ.providerOf (σ.dealOf dealId).provider).reputation < 5) :
    completeDeal σ caller now dealId = .error .underflow := by
  delta completeDeal
  simp only []
  rw [if_neg (not_not_intro hauth), if_neg (not_not_intro hact),
    if_neg (not_not_intro hend), if_neg (not_not_intro hfs),
    if_neg (by omega), if_pos (Nat.not_le.mpr hrep)]

/-- The reachable state after 20 reputation-draining cycles (reputation
0) plus one more Active, proofless one-byte deal (deal 20). -/
def c5Sigma : MarketState := step (pump 20) (.create 2 200000 1 1 3600 3600)

theorem c5Sigma_facts :
    (c5Sigma.providerOf 1).reputation = 0 ∧
    (c5Sigma.providerOf 1).usedCapacity = 1 ∧
    c5Sigma.dealOf 20 =
      { dealId := 20, provider := 1, renter := 2, fileSize := 1
        pricePerByte := 1, duration := 3600, startTime := 200000
        endTime := 203600, isActive := true, isCompleted := false
        proofHash := "" } ∧
    completeDeal c5Sigma 2 203600 20 = .error .underflow ∧
    step c5Sigma (.complete 2 203600 20) = c5Sigma := by
  obtain ⟨hprof, hctr, hmin, hmax, hfee, hpause⟩ := pump_spec 20 (by omega)
  have hact : ((pump 20).providerOf 1).isActive = true := by rw [hprof]
  have hcd := createDeal_ok_intro (pump 20) 2 200000 1 1 3600 3600
    hpause hact (by norm_num) hmin.le (by rw [hmax]; norm_num)
    (by rw [hprof]; exact lt_U256_of_le (by norm_num))
    (by rw [hprof]; norm_num)
    (by rw [hctr]; exact lt_U256_of_le (by omega))
    (by rw [hprof]; exact lt_U256_of_le (by norm_num))
    (by rw [hprof]; exact lt_U256_of_le (by norm_num))
    (by rw [hprof]; norm_num)
    (lt_U256_of_le (by omega))
    (by rw [hprof, hfee]; exact lt_U256_of_le (by norm_num))
    (by rw [hprof, hfee]; norm_num)
  have hc5 : c5Sigma = createDealEffect (pump 20) 2 200000 1 1 3600 := by
    show step (pump 20) (.create 2 200000 1 1 3600 3600) = _
    simp only [step, hcd]
  have hdeald : c5Sigma.dealOf 20 =
      { dealId := 20, provider := 1, renter := 2, fileSize := 1
        pricePerByte := 1, duration := 3600, startTime := 200000
        endTime := 203600, isActive := true, isCompleted := false
        proofHash := "" } := by
    rw [hc5]
    have h := createDealEffect_dealOf_self (pump 20) 2 200000 1 1 3600
    rw [hctr, hprof] at h
    exact h
  have hprovd : c5Sigma.providerOf 1 =
      { provider := 1, totalCapacity := 100, usedCapacity := 1
        reputation := 0, isActive := true, location := ""
        pricePerByte := 1 } := by
    rw [hc5]
    have h := createDealEffect_providerOf (pump 20) 2 200000 1 1 3600 1
    rw [if_pos rfl, hprof] at h
    exact h
  have herr : completeDeal c5Sigma 2 203600 20 = .error .underflow := by
    refine completeDeal_underflow_intro c5Sigma 2 203600 20
      (Or.inl (by rw [hdeald])) (by rw [hdeald])
      (by rw [hdeald]) ?_ (by rw [hdeald]; decide) ?_
    · show (c5Sigma.dealOf 20).fileSize
        ≤ (c5Sigma.providerOf (c5Sigma.dealOf 20).provider).usedCapacity
      rw [hdeald]
      show (1 : Nat) ≤ (c5Sigma.providerOf 1).usedCapacity
      rw [hprovd]
    · show (c5Sigma.providerOf (c5Sigma.dealOf 20).provider).reputation < 5
      rw [hdeald]
      show (c5Sigma.providerOf 1).reputation < 5
      rw [hprovd]
      norm_num
  refine ⟨?_, ?_, hdeald, herr, ?_⟩
  · rw [hprovd]
  · rw [hprovd]
  · simp only [step, herr]

/-- **C5 counterexample.**  In a reachable state (provider registered,
then 20 proofless deal completions each costing 5 reputation) the
provider's reputation is 0; completing one more expired proofless deal
does not clamp the −5 penalty at the floor — the checked subtraction
`reputation -= 5` underflows and the whole call reverts (state
unchanged), so the deal can never be completed without a proof. -/
theorem C5_counterexample :
    (c5Sigma.providerOf 1).reputation = 0 ∧
    (c5Sigma.dealOf 20).isActive = true ∧
    (c5Sigma.dealOf 20).proofHash = "" ∧
    (c5Sigma.dealOf 20).endTime ≤ 203600 ∧
    (c5Sigma.dealOf 20).renter = 2 ∧
    completeDeal c5Sigma 2 203600 20 = .error .underflow ∧
    step c5Sigma (.complete 2 203600 20) = c5Sigma := by
  obtain ⟨h1, h2, h3, h4, h5⟩ := c5Sigma_facts
  exact ⟨h1, by rw [h3], by rw [h3], by rw [h3], by rw [h3], h4, h5⟩

/-- **C5 (amended).**  `completeDeal` on an Active deal before `endTime`
fails with a `StateError`; at or after `endTime` it releases the
reserved `fileSize`, marks the deal Completed, and adjusts reputation by
+10 when a non-empty `proofHash` was recorded and by −5 otherwise — but
the −5 penalty is only applied when `reputation ≥ 5`; when
`reputation < 5` the checked subtraction reverts the call (no clamping
at the floor), which is also why the stored reputation never goes below
0. -/
theorem C5_completeDeal_spec :
    (∀ (σ : MarketState) (caller now dealId : Nat),
      ((σ.dealOf dealId).renter = caller
        ∨ (σ.dealOf dealId).provider = caller) →
      (σ.dealOf dealId).isActive = true →
      now < (σ.dealOf dealId).endTime →
      completeDeal σ caller now dealId = .error .dealNotExpired ∧
      MErr.dealNotExpired.isStateError = true) ∧
    (∀ (σ : MarketState) (caller now dealId : Nat) (σ' : MarketState),
      completeDeal σ caller now dealId = .ok σ' →
      (σ.dealOf dealId).endTime ≤ now ∧
      (σ'.dealOf dealId).isActive = false ∧
      (σ'.dealOf dealId).isCompleted = true ∧
      (σ'.providerOf (σ.dealOf dealId).provider).usedCapacity
        = (σ.providerOf (σ.dealOf dealId).provider).usedCapacity
          - (σ.dealOf dealId).fileSize ∧
      (0 < (σ.dealOf dealId).proofHash.length →
        (σ'.providerOf (σ.dealOf dealId).provider).reputation
          = (σ.providerOf (σ.dealOf dealId).provider).reputation + 10) ∧
      ((σ.dealOf dealId).proofHash.length = 0 →
        5 ≤ (σ.providerOf (σ.dealOf dealId).provider).reputation ∧
        (σ'.providerOf (σ.dealOf dealId).provider).reputation
          = (σ.providerOf (σ.dealOf dealId).provider).reputation - 5)) ∧
    (∀ (σ : MarketState) (caller now dealId : Nat),
      ((σ.dealOf dealId).renter = caller
        ∨ (σ.dealOf dealId).provider = caller) →
      (σ.dealOf dealId).isActive = true →
      (σ.dealOf dealId).endTime ≤ now →
      (σ.dealOf dealId).fileSize
        ≤ (σ.providerOf (σ.dealOf dealId).provider).usedCapacity →
      (σ.dealOf dealId).proofHash.length = 0 →
      (σ.providerOf (σ.dealOf dealId).provider).reputation < 5 →
      completeDeal σ caller now dealId = .error .underflow) := by
  refine ⟨?_, ?_, ?_⟩
  · intro σ caller now dealId hauth hact hearly
    refine ⟨?_, rfl⟩
    delta completeDeal
    simp only []
    rw [if_neg (by simp [hauth]), if_neg (by simp [hact]), if_pos (by omega)]
  · intro σ caller now dealId σ' hok
    obtain ⟨-, -, hend, hfs, hcase⟩ := completeDeal_ok_spec hok
    rcases hcase with ⟨hlen, rfl⟩ | ⟨hlen, hrep, rfl⟩ <;>
      rw [completeDealEffect_dealOf] <;>
      rw [completeDealEffect_providerOf, if_pos rfl, if_pos rfl]
    · exact ⟨hend, rfl, rfl, rfl, fun _ => rfl, fun h0 => absurd hlen (by omega)⟩
    · exact ⟨hend, rfl, rfl, rfl, fun hpos => absurd hlen (by omega),
        fun _ => ⟨hrep, rfl⟩⟩
  · intro σ caller now dealId hauth hact hend hfs hlen hrep
    delta completeDeal
    simp only []
    rw [if_neg (not_not_intro hauth), if_neg (not_not_intro hact),
      if_neg (not_not_intro hend), if_neg (not_not_intro hfs),
      if_neg (by omega), if_pos (Nat.not_le.mpr hrep)]

def w5Sigma : MarketState := step c2Sigma (.proof 5 1000 0 "abc")

def w5Res : MarketState :=
  ((completeDeal w5Sigma 1 4000 0).toOption).getD w5Sigma

set_option maxRecDepth 100000 in
set_option maxHeartbeats 0 in
/-- Concrete instance of `C5_completeDeal_spec`: an early completion
rejected with `StateError`, a successful post-`endTime` completion with
a submitted proof (+10 reputation), and the reverting proofless
completion at reputation 0. -/
theorem C5_completeDeal_spec_witness :
    (completeDeal c2Sigma 1 0 0 = .error .dealNotExpired ∧
      MErr.dealNotExpired.isStateError = true) ∧
    ((w5Sigma.dealOf 0).endTime ≤ 4000 ∧
      (w5Res.dealOf 0).isActive = false ∧
      (w5Res.dealOf 0).isCompleted = true ∧
      (w5Res.providerOf (w5Sigma.dealOf 0).provider).usedCapacity
        = (w5Sigma.providerOf (w5Sigma.dealOf 0).provider).usedCapacity
          - (w5Sigma.dealOf 0).fileSize ∧
      (0 < (w5Sigma.dealOf 0).proofHash.length →
        (w5Res.providerOf (w5Sigma.dealOf 0).provider).reputation
          = (w5Sigma.providerOf (w5Sigma.dealOf 0).provider).reputation
            + 10) ∧
      ((w5Sigma.dealOf 0).proofHash.length = 0 →
        5 ≤ (w5Sigma.providerOf (w5Sigma.dealOf 0).provider).reputation ∧
        (w5Res.providerOf (w5Sigma.dealOf 0).provider).reputation
          = (w5Sigma.providerOf (w5Sigma.dealOf 0).provider).reputation
            - 5)) ∧
    completeDeal c5Sigma 2 203600 20 = .error .underflow := by
  refine ⟨?_, ?_, ?_⟩
  · exact C5_completeDeal_spec.1 c2Sigma 1 0 0 (Or.inl (by decide))
      (by decide) (by decide)
  · exact C5_completeDeal_spec.2.1 w5Sigma 1 4000 0 w5Res rfl
  · exact C5_completeDeal_spec.2.2 c5Sigma 2 203600 20
      (Or.inl (by decide)) (by decide) (by decide) (by decide) (by decide)
      (by decide)

/-- Shape of the chunk list for a positive chunk size and non-empty
input: `⌈S/C⌉` chunks, sizes summing to `S`, all-but-last exactly `C`,
and a non-empty last chunk of size `S - C * (count - 1) ≤ C`
(independent of the `getLastD` default). -/
theorem splitFileIntoChunks_spec (chunkSize : Nat) :
    ∀ bytes : List Nat, 0 < chunkSize → bytes ≠ [] →
      (splitFileIntoChunks chunkSize bytes).length
          = (bytes.length + chunkSize - 1) / chunkSize ∧
      ((splitFileIntoChunks chunkSize bytes).map List.length).sum
          = bytes.length ∧
      (∀ c ∈ (splitFileIntoChunks chunkSize bytes).dropLast,
          c.length = chunkSize) ∧
      (∀ d : List Nat,
        ((splitFileIntoChunks chunkSize bytes).getLastD d).length
            = bytes.length
              - chunkSize * ((splitFileIntoChunks chunkSize bytes).length - 1) ∧
        0 < ((splitFileIntoChunks chunkSize bytes).getLastD d).length ∧
        ((splitFileIntoChunks chunkSize bytes).getLastD d).length
          ≤ chunkSize) := by
  refine splitFileIntoChunks.induct chunkSize _ ?_ ?_
  · intro bytes h ih hC hne
    have hsplit : splitFileIntoChunks chunkSize bytes
        = bytes.take chunkSize
          :: splitFileIntoChunks chunkSize (bytes.drop chunkSize) := by
      rw [splitFileIntoChunks, dif_pos h]
    by_cases hle : bytes.length ≤ chunkSize
    · have hdropnil : bytes.drop chunkSize = [] := List.drop_eq_nil_iff.mpr hle
      have hrestnil : splitFileIntoChunks chunkSize (bytes.drop chunkSize)
          = [] := by
        rw [hdropnil, splitFileIntoChunks]
        simp
      have hpos : 0 < bytes.length := List.length_pos.mpr hne
      rw [hsplit, hrestnil]
      refine ⟨?_, ?_, by simp, ?_⟩
      · simp only [List.length_cons, List.length_nil]
        exact (Nat.div_eq_of_lt_le (by omega) (by omega)).symm
      · simp only [List.map_cons, List.map_nil, List.sum_cons, List.sum_nil,
          List.length_take]
        omega
      · intro d
        simp only [List.getLastD_cons, List.getLastD_nil, List.length_cons,
          List.length_nil, List.length_take]
        omega
    · push_neg at hle
      have hdropne : bytes.drop chunkSize ≠ [] := by
        intro hcontra
        have := List.drop_eq_nil_iff.mp hcontra
        omega
      obtain ⟨ihlen, ihsum, ihdrop, ihlast⟩ := ih hC hdropne
      have hRne : splitFileIntoChunks chunkSize (bytes.drop chunkSize)
          ≠ [] := by
        rw [splitFileIntoChunks, dif_pos ⟨hC, hdropne⟩]
        exact List.cons_ne_nil _ _
      obtain ⟨y, ys, hR⟩ : ∃ y ys,
          splitFileIntoChunks chunkSize (bytes.drop chunkSize) = y :: ys := by
        cases hcase : splitFileIntoChunks chunkSize (bytes.drop chunkSize) with
        | nil => exact absurd hcase hRne
        | cons y ys => exact ⟨y, ys, rfl⟩
      rw [hR] at ihlen ihsum ihdrop ihlast
      simp only [List.length_drop] at ihlen ihsum
      rw [hsplit, hR]
      refine ⟨?_, ?_, ?_, ?_⟩
      · have hlc : (bytes.take chunkSize :: y :: ys).length
            = (y :: ys).length + 1 := rfl
        rw [hlc, ihlen]
        have harith : bytes.length + chunkSize - 1
            = ((bytes.length - chunkSize) + chunkSize - 1) + chunkSize := by
          omega
        rw [harith, Nat.add_div_right _ hC]
      · have hsc : ((bytes.take chunkSize :: y :: ys).map List.length).sum
            = (bytes.take chunkSize).length
              + ((y :: ys).map List.length).sum := rfl
        rw [hsc, ihsum, List.length_take]
        omega
      · rw [List.dropLast_cons₂]
        intro c hc
        rcases List.mem_cons.mp hc with rfl | hmem
        · rw [List.length_take]
          omega
        · exact ihdrop c hmem
      · intro d
        rw [List.getLastD_cons]
        obtain ⟨l1, l2, l3⟩ := ihlast (bytes.take chunkSize)
        refine ⟨?_, l2, l3⟩
        rw [l1]
        simp only [List.length_drop, List.length_cons, Nat.add_sub_cancel]
        rw [Nat.mul_succ]
        generalize chunkSize * ys.length = x
        omega
  · intro bytes h hC hne
    exact absurd ⟨hC, hne⟩ h

/-- **C7.** For non-empty content and a positive `chunkSize`, the
splitter produces exactly `⌈S/C⌉ = (S + C - 1) / C` chunks whose sizes
sum to `S`; every chunk but the last has size exactly `C`, the last has
size `S - C * (⌈S/C⌉ - 1) ≤ C`; and the hash sequence depends only on
the byte content (determinism). -/
theorem C7_chunking (bytes : List Nat) (chunkSize : Nat)
    (hS : bytes ≠ []) (hC : 0 < chunkSize) :
    (splitFileIntoChunks chunkSize bytes).length
        = (bytes.length + chunkSize - 1) / chunkSize ∧
    ((splitFileIntoChunks chunkSize bytes).map List.length).sum
        = bytes.length ∧
    (∀ c ∈ (splitFileIntoChunks chunkSize bytes).dropLast,
        c.length = chunkSize) ∧
    ((splitFileIntoChunks chunkSize bytes).getLastD []).length
        = bytes.length
          - chunkSize * ((bytes.length + chunkSize - 1) / chunkSize - 1) ∧
    ((splitFileIntoChunks chunkSize bytes).getLastD []).length
      ≤ chunkSize ∧
    (∀ (digest : List Nat → String) (f₁ f₂ : JSFile),
      f₁.bytes = f₂.bytes →
      chunkHashes digest chunkSize f₁.bytes
        = chunkHashes digest chunkSize f₂.bytes) := by
  obtain ⟨hlen, hsum, hdrop, hlast⟩ :=
    splitFileIntoChunks_spec chunkSize bytes hC hS
  obtain ⟨l1, l2, l3⟩ := hlast []
  refine ⟨hlen, hsum, hdrop, ?_, l3, fun digest f₁ f₂ h => by rw [h]⟩
  rw [l1, hlen]

/-- Concrete instance of `C7_chunking`: a 7-byte file with chunk size 3
gives chunks of sizes 3, 3, 1 and a content-determined hash sequence. -/
theorem C7_chunking_witness :
    (splitFileIntoChunks 3 [1, 2, 3, 4, 5, 6, 7]).length = (7 + 3 - 1) / 3 ∧
    ((splitFileIntoChunks 3 [1, 2, 3, 4, 5, 6, 7]).map List.length).sum = 7 ∧
    (∀ c ∈ (splitFileIntoChunks 3 [1, 2, 3, 4, 5, 6, 7]).dropLast,
        c.length = 3) ∧
    ((splitFileIntoChunks 3 [1, 2, 3, 4, 5, 6, 7]).getLastD []).length
        = 7 - 3 * ((7 + 3 - 1) / 3 - 1) ∧
    ((splitFileIntoChunks 3 [1, 2, 3, 4, 5, 6, 7]).getLastD []).length ≤ 3 ∧
    (∀ (digest : List Nat → String) (f₁ f₂ : JSFile),
      f₁.bytes = f₂.bytes →
      chunkHashes digest 3 f₁.bytes = chunkHashes digest 3 f₂.bytes) := by
  have h := C7_chunking [1, 2, 3, 4, 5, 6, 7] 3 (by decide) (by decide)
  simpa using h

/-- **C8 counterexample.**  `splitFileIntoChunks` performs no input
validation: on an empty file the loop body never runs and the call
returns an empty chunk list and an empty hash list — it does not fail
with a `ValidationError` (the source has no validation or throw path at
all). -/
theorem C8_counterexample :
    splitFileIntoChunks 1024 [] = [] ∧
    chunkHashes (fun _ => "") 1024 [] = [] := by
  constructor
  · rw [splitFileIntoChunks]
    simp
  · show (splitFileIntoChunks 1024 []).map _ = []
    rw [splitFileIntoChunks]
    simp

/-- **C8 (amended).**  The splitter never raises a `ValidationError`:
for an empty file it returns the empty chunk list, and for
`chunkSize ≤ 0` on a non-empty file the loop guard `start < size` holds
at the start of every iteration (`start = n * chunkSize` never reaches
`size`), so the loop never terminates and no value — and no error — is
produced. -/
theorem C8_split_no_validation :
    (∀ chunkSize : Nat, splitFileIntoChunks chunkSize [] = []) ∧
    (∀ chunkSize size : Int, chunkSize ≤ 0 → 0 < size →
      ∀ n : Nat, splitLoopStart chunkSize n < size) := by
  constructor
  · intro c
    rw [splitFileIntoChunks]
    simp
  · intro c sz hc hsz n
    have h0 : (0 : Int) ≤ (n : Int) := Int.natCast_nonneg n
    have hmul : (n : Int) * c ≤ (n : Int) * 0 :=
      mul_le_mul_of_nonneg_left hc h0
    simp only [mul_zero] at hmul
    calc splitLoopStart c n = (n : Int) * c := rfl
      _ ≤ 0 := hmul
      _ < sz := hsz

/-- Concrete instance of `C8_split_no_validation`: empty input with the
default 1 MB chunk size returns `[]`, and with `chunkSize = -2` the loop
variable is still below a 7-byte file size after 5 iterations. -/
theorem C8_split_no_validation_witness :
    splitFileIntoChunks 1024 ([] : List Nat) = [] ∧
    splitLoopStart (-2) 5 < 7 :=
  ⟨C8_split_no_validation.1 1024,
    C8_split_no_validation.2 (-2) 7 (by norm_num) (by norm_num) 5⟩

/-- The all-zero registry snapshot (no devices, no storage). -/
def zeroStats : NetworkStatsSnapshot :=
  { onlineDevices := 0, totalDevices := 0, totalStorage := 0
    usedStorage := 0, onChainDevices := 0 }

theorem calcHealth_zeroStats :
    calculateNetworkHealth zeroStats initPerformance = 24 := by
  simp only [calculateNetworkHealth, zeroStats, initPerformance, jsRound]
  norm_num
  rw [abs_of_nonneg (by norm_num : (0:ℚ) ≤ 7 / 10)]
  rw [max_eq_right (by norm_num : (0:ℚ) ≤ 1 - 7 / 10)]
  rw [show (1 - (7:ℚ) / 10) * 20 + 18 + 1 / 2 = 24 + 1 / 2 by norm_num]
  have hfl : ⌊(24:ℚ) + 1 / 2⌋ = 24 := by
    rw [Int.floor_eq_iff]
    constructor
    · norm_num
    · norm_num
  rw [hfl]
  rw [max_eq_right (by norm_num : (0:ℤ) ≤ 24)]
  exact min_eq_right (by norm_num)

/-- **C6 counterexample.**  On the snapshot with zero devices (and the
initial performance stats, whose `successRate` starts at 100) the
health score is 24, not 0: the storage-utilization factor contributes
`(1 - |0.7 - 0|) * 20 = 6` and the latency factor
`max 0 (1 - (0 - 20)/100) * 15 = 18` even with an empty network. -/
theorem C6_counterexample :
    zeroStats.totalDevices = 0 ∧
    calculateNetworkHealth zeroStats initPerformance = 24 ∧
    (24 : ℤ) ≠ 0 :=
  ⟨rfl, calcHealth_zeroStats, by norm_num⟩

/-- **C6 (amended).**  The health score is clamped into `[0, 100]` for
every input snapshot, but with a zero device count the score is not 0:
the utilization and latency factors still contribute (the all-zero
snapshot with the initial performance stats scores 24). -/
theorem C6_health_score_bounds :
    (∀ (ns : NetworkStatsSnapshot) (perf : PerformanceSnapshot),
      0 ≤ calculateNetworkHealth ns perf
        ∧ calculateNetworkHealth ns perf ≤ 100) ∧
    calculateNetworkHealth zeroStats initPerformance = 24 := by
  refine ⟨fun ns perf => ⟨?_, ?_⟩, calcHealth_zeroStats⟩
  · simp only [calculateNetworkHealth]
    exact le_min (by norm_num) (le_max_left 0 _)
  · simp only [calculateNetworkHealth]
    exact min_le_left _ _

/-- `uploadFileToNetwork` as a transaction: an error is a revert, so the
pre-state is kept. -/
def snStep (σ : SNState) (caller now : Nat) (fileId fileName : String)
    (fileSize : Nat) (chunkHashes : List String) : SNState :=
  match uploadFileToNetwork σ caller now fileId fileName fileSize
      chunkHashes with
  | .ok σ' => σ'
  | .error _ => σ

/-- Registry with providers 1 and 2 completely full and provider 3
almost empty; all three are in `activeProviders`. -/
def snSigma : SNState :=
  { storageProviders := [
      (1, { totalStorage := 1000, usedStorage := 1000, uploadCount := 0
            isActive := true, endpoint := "a", nftTokenId := 1 }),
      (2, { totalStorage := 1000, usedStorage := 1000, uploadCount := 0
            isActive := true, endpoint := "b", nftTokenId := 2 }),
      (3, { totalStorage := 1000000, usedStorage := 0, uploadCount := 0
            isActive := true, endpoint := "c", nftTokenId := 3 })]
    fileChunks := [], distributedFiles := [], activeProviders := [1, 2, 3]
    activeFileIds := [] }

def c9Upload : Except SNErr SNState :=
  uploadFileToNetwork snSigma 9 500 "f" "file" 1000 ["h1", "h2"]

def c9Result : SNState := (c9Upload.toOption).getD snSigma

/-- **C9 counterexample.**  In `snSigma` only one provider (3) has any
free capacity, so fewer than `MIN_REDUNDANCY = 3` distinct providers
can be satisfied for the file — yet the upload of its two chunks
succeeds, places both chunks on provider 3 (one distinct provider), and
commits the capacity charges, instead of returning an
insufficient-providers error with all reservations undone. -/
theorem C9_counterexample :
    (snSigma.activeProviders.filter (fun a =>
      (snSigma.providerOf a).usedStorage
        < (snSigma.providerOf a).totalStorage)) = [3] ∧
    (1 : Nat) < MIN_REDUNDANCY ∧
    c9Upload = .ok c9Result ∧
    (c9Result.fileOf "f").chunkProviders = [3, 3] ∧
    (c9Result.fileOf "f").chunkProviders.dedup.length = 1 ∧
    (c9Result.providerOf 3).usedStorage = 1000 :=
  ⟨by decide, by decide, rfl, by decide, by decide, by decide⟩

/-- **C9 (amended).**  `uploadFileToNetwork` fails with
`Insufficient active providers` when fewer than `MIN_REDUNDANCY`
providers are *listed* active (regardless of their free capacity), and
with `No suitable provider found` when `_selectProvider` finds no
provider for the first chunk; every failed call reverts, so the registry
state after a failed call equals the state before it.  Satisfying fewer
than `MIN_REDUNDANCY` *distinct* providers does not by itself make the
call fail (see the counterexample). -/
theorem C9_upload_provider_check :
    (∀ (σ : SNState) (caller now : Nat) (fid fname : String)
        (fsize : Nat) (hashes : List String),
      0 < fid.length → 0 < fsize → 0 < hashes.length →
      (σ.fileOf fid).isActive = false →
      σ.activeProviders.length < MIN_REDUNDANCY →
      uploadFileToNetwork σ caller now fid fname fsize hashes
        = .error .insufficientActiveProviders) ∧
    (∀ (σ : SNState) (caller now : Nat) (fid fname : String)
        (fsize : Nat) (hashes : List String) (e : SNErr),
      uploadFileToNetwork σ caller now fid fname fsize hashes = .error e →
      snStep σ caller now fid fname fsize hashes = σ) ∧
    (∀ (σ : SNState) (caller now : Nat) (fid fname : String)
        (fsize : Nat) (hashes : List String),
      0 < fid.length → 0 < fsize → 0 < hashes.length →
      (σ.fileOf fid).isActive = false →
      MIN_REDUNDANCY ≤ σ.activeProviders.length →
      selectProvider σ (fsize / hashes.length) = 0 →
      uploadFileToNetwork σ caller now fid fname fsize hashes
        = .error .noSuitableProvider) := by
  refine ⟨?_, ?_, ?_⟩
  · intro σ caller now fid fname fsize hashes h1 h2 h3 h4 h5
    delta uploadFileToNetwork
    rw [if_neg (not_not_intro h1), if_neg (not_not_intro h2),
      if_neg (not_not_intro h3), if_neg (by simp [h4]),
      if_pos (Nat.not_le.mpr h5)]
  · intro σ caller now fid fname fsize hashes e he
    simp only [snStep, he]
  · intro σ caller now fid fname fsize hashes h1 h2 h3 h4 h5 hsel
    delta uploadFileToNetwork
    rw [if_neg (not_not_intro h1), if_neg (not_not_intro h2),
      if_neg (not_not_intro h3), if_neg (by simp [h4]),
      if_neg (not_not_intro h5)]
    cases hashes with
    | nil => simp at h3
    | cons h rest =>
      simp only [uploadChunksLoop]
      rw [if_pos hsel]

/-- A registry with only two (full) active providers. -/
def w9Sigma : SNState :=
  { storageProviders := [
      (1, { totalStorage := 1000, usedStorage := 1000, uploadCount := 0
            isActive := true, endpoint := "a", nftTokenId := 1 }),
      (2, { totalStorage := 1000, usedStorage := 1000, uploadCount := 0
            isActive := true, endpoint := "b", nftTokenId := 2 })]
    fileChunks := [], distributedFiles := [], activeProviders := [1, 2]
    activeFileIds := [] }

/-- A registry with three active providers, all completely full. -/
def w9bSigma : SNState :=
  { storageProviders := [
      (1, { totalStorage := 1000, usedStorage := 1000, uploadCount := 0
            isActive := true, endpoint := "a", nftTokenId := 1 }),
      (2, { totalStorage := 1000, usedStorage := 1000, uploadCount := 0
            isActive := true, endpoint := "b", nftTokenId := 2 }),
      (3, { totalStorage := 1000, usedStorage := 1000, uploadCount := 0
            isActive := true, endpoint := "c", nftTokenId := 3 })]
    fileChunks := [], distributedFiles := [], activeProviders := [1, 2, 3]
    activeFileIds := [] }

/-- Concrete instance of `C9_upload_provider_check`: two registered
providers reject the upload with the provider-count error and leave the
state unchanged; three full providers reject it with the
no-suitable-provider error. -/
theorem C9_upload_provider_check_witness :
    uploadFileToNetwork w9Sigma 9 500 "f" "file" 1000 ["h1"]
      = .error .insufficientActiveProviders ∧
    snStep w9Sigma 9 500 "f" "file" 1000 ["h1"] = w9Sigma ∧
    uploadFileToNetwork w9bSigma 9 500 "f" "file" 1000 ["h1", "h2"]
      = .error .noSuitableProvider := by
  have h1 := C9_upload_provider_check.1 w9Sigma 9 500 "f" "file" 1000 ["h1"]
    (by decide) (by decide) (by decide) (by decide) (by decide)
  refine ⟨h1, C9_upload_provider_check.2.1 w9Sigma 9 500 "f" "file" 1000
    ["h1"] .insufficientActiveProviders h1, ?_⟩
  exact C9_upload_provider_check.2.2 w9bSigma 9 500 "f" "file" 1000
    ["h1", "h2"] (by decide) (by decide) (by decide) (by decide)
    (by decide) (by decide)

/-- **C10.**  A deal's `pricePerByte` is snapshotted at creation: after
`createDeal` records a deal and the provider raises its price with
`updateProviderPrice`, the stored deal's price is still the provider's
price at creation time, and a subsequent `cancelDeal` refunds
`fileSize * pricePerByte * duration` computed from that snapshot, not
from the provider's current price. -/
theorem C10_price_snapshot :
    ∀ (σ : MarketState) (caller now provider fileSize duration payment
        newPrice : Nat) (σ₁ : MarketState) (tr : List Transfer)
        (σ₂ : MarketState),
      createDeal σ caller now provider fileSize duration payment
          = .ok (σ₁, tr) →
      updateProviderPrice σ₁ provider newPrice = .ok σ₂ →
      (σ₂.dealOf σ.dealIdCounter).pricePerByte
          = (σ.providerOf provider).pricePerByte ∧
      (σ₂.providerOf provider).pricePerByte = newPrice ∧
      (∀ (now₂ : Nat) (σ₃ : MarketState) (tr₂ : List Transfer),
        cancelDeal σ₂ caller now₂ σ.dealIdCounter = .ok (σ₃, tr₂) →
        tr₂ = [(caller,
          fileSize * (σ.providerOf provider).pricePerByte * duration)]) := by
  intro σ caller now provider fileSize duration payment newPrice σ₁ tr σ₂
    hcd hup
  obtain ⟨-, -, -, -, -, -, -, rfl, -⟩ := createDeal_ok_spec hcd
  obtain ⟨-, -, rfl⟩ := updateProviderPrice_ok_spec hup
  have hdeal : ((createDealEffect σ caller now provider fileSize
        duration).setProvider provider
      { (createDealEffect σ caller now provider fileSize
          duration).providerOf provider with
        pricePerByte := newPrice }).dealOf σ.dealIdCounter
      = { dealId := σ.dealIdCounter, provider := provider, renter := caller
          fileSize := fileSize
          pricePerByte := (σ.providerOf provider).pricePerByte
          duration := duration, startTime := now, endTime := now + duration
          isActive := true, isCompleted := false, proofHash := "" } := by
    rw [dealOf_setProvider, createDealEffect_dealOf_self]
  refine ⟨by rw [hdeal], ?_, ?_⟩
  · rw [providerOf_setProvider, if_pos rfl]
  · intro now₂ σ₃ tr₂ hcan
    obtain ⟨-, -, -, -, -, rfl⟩ := cancelDeal_ok_spec hcan
    rw [hdeal]

def w10Sigma2 : MarketState :=
  ((updateProviderPrice w4Res.1 1 7).toOption).getD w4Res.1

def w10Res : MarketState × List Transfer :=
  ((cancelDeal w10Sigma2 2 999 0).toOption).getD (w10Sigma2, [])

/-- Concrete instance of `C10_price_snapshot`: after the provider raises
its price from 1 to 7 wei, the stored deal still carries price 1 and the
cancellation refunds 3,600,000,000 wei (at the snapshot price). -/
theorem C10_price_snapshot_witness :
    (w10Sigma2.dealOf 0).pricePerByte = (w4Sigma.providerOf 1).pricePerByte ∧
    (w10Sigma2.providerOf 1).pricePerByte = 7 ∧
    w10Res.2 = [(2, 1000000 * (w4Sigma.providerOf 1).pricePerByte * 3600)] := by
  have h := C10_price_snapshot w4Sigma 2 1000 1 1000000 3600 5000000000 7
    w4Res.1 w4Res.2 w10Sigma2 rfl rfl
  exact ⟨h.1, h.2.1, h.2.2 999 w10Res.1 w10Res.2 rfl⟩
